import Mathlib

/-!
Verification development for the database-migration orchestrator backend.

The Python sources under `src/backend` and `src/new-backend` are shallowly
embedded below: pure string algorithms become Lean functions over `List Char`
or `String`, stateful node functions become functions on an explicit
`MigrationContext` record, and every external effect (Snowflake execution,
LLM calls, the filesystem, subprocesses) becomes an explicit parameter of the
embedded function.  Wall-clock time fields (`created_at`, `updated_at`,
timestamps inside log entries) and logging side effects (`logger`,
`log_event`, `pty_echo`) are omitted: no claim mentions them.
-/

namespace Spec2Proof

/-! ## Python string primitives

Models of the Python `str` operations used by the embedded code.  All inputs
in this development are ASCII, so `lower` is modelled on ASCII letters and
`splitlines` on the `\n`, `\r\n` and `\r` terminators actually produced by
the embedded code paths.
-/

/-- The characters Python `str.strip()` removes (ASCII whitespace). -/
def isPySpace (c : Char) : Bool :=
  c = ' ' || c = '\t' || c = '\n' || c = '\r' || c = '\x0b' || c = '\x0c'

/-- Left-brace character (scripted as a code to keep string literals plain). -/
def lbrace : Char := Char.ofNat 123

/-- Right-brace character. -/
def rbrace : Char := Char.ofNat 125

/-- Drop leading Python whitespace from a character list. -/
def lstripList (cs : List Char) : List Char := cs.dropWhile isPySpace

/-- Drop trailing Python whitespace from a character list. -/
def rstripList (cs : List Char) : List Char :=
  (cs.reverse.dropWhile isPySpace).reverse

/-- Model of Python `str.strip()`. -/
def stripList (cs : List Char) : List Char := rstripList (lstripList cs)

/-- Model of Python `str.strip()` on `String`. -/
def pyStrip (s : String) : String := String.mk (stripList s.toList)

/-- Model of Python `str.rstrip()` on `String`. -/
def pyRStrip (s : String) : String := String.mk (rstripList s.toList)

/-- ASCII lower-casing of one character (model of `str.lower` on ASCII). -/
def asciiLowerChar (c : Char) : Char :=
  if 'A' ≤ c && c ≤ 'Z' then Char.ofNat (c.toNat + 32) else c

/-- Model of Python `str.lower()` (ASCII range). -/
def pyLower (s : String) : String := String.mk (s.toList.map asciiLowerChar)

/-- Whether `pat` occurs as a contiguous sublist of `cs`
(model of Python `pat in s`). -/
def listContainsSub (cs pat : List Char) : Bool :=
  match cs with
  | [] => pat.isPrefixOf []
  | _ :: rest => pat.isPrefixOf cs || listContainsSub rest pat

/-- Model of Python `pat in s` on strings. -/
def pyContains (s pat : String) : Bool := listContainsSub s.toList pat.toList

/-- Index of the first occurrence of `pat` in `cs`
(model of Python `s.find(pat)` / `s.index(pat)`). -/
def listIndexOfSub (cs pat : List Char) : Option Nat :=
  match cs with
  | [] => if pat.isPrefixOf [] then some 0 else none
  | _ :: rest =>
      if pat.isPrefixOf cs then some 0
      else (listIndexOfSub rest pat).map (· + 1)

/-- Model of Python `s.startswith(pat)`. -/
def pyStartsWith (s pat : String) : Bool := pat.toList.isPrefixOf s.toList

/-- Helper for `pySplitlines`: accumulate the current line and finished lines. -/
def pySplitlinesAux : List Char → List Char → List (List Char) → List (List Char)
  | [], cur, acc => if cur.isEmpty then acc.reverse else (cur.reverse :: acc).reverse
  | '\r' :: '\n' :: rest, cur, acc => pySplitlinesAux rest [] (cur.reverse :: acc)
  | '\r' :: rest, cur, acc => pySplitlinesAux rest [] (cur.reverse :: acc)
  | '\n' :: rest, cur, acc => pySplitlinesAux rest [] (cur.reverse :: acc)
  | c :: rest, cur, acc => pySplitlinesAux rest (c :: cur) acc

/-- Model of Python `str.splitlines()` for the terminators `\n`, `\r\n`, `\r`. -/
def pySplitlines (s : String) : List String :=
  (pySplitlinesAux s.toList [] []).map String.mk

/-- Model of Python `len(text.splitlines()) if text else 0`
(`_count_lines` in `core/integrations.py`). -/
def countLines (text : String) : Nat :=
  if text = "" then 0 else (pySplitlines text).length

/-- Model of Python `"\n".join(lines)` / generic separator join. -/
def joinWith (sep : String) : List String → String
  | [] => ""
  | [s] => s
  | s :: rest => s ++ sep ++ joinWith sep rest

example : pySplitlines "a\n\nb" = ["a", "", "b"] := by decide
example : pySplitlines "a\n" = ["a"] := by decide
example : pySplitlines "" = [] := by decide
example : countLines "x\ny\n" = 2 := by decide
example : pyStrip "  a b\t" = "a b" := by decide

/-! ## `core/snowflake_runtime.py`: `split_sql_statements`

Faithful translation of the index-based `while` loop.  The scan state is
`(in_single, in_double, in_dollar, prev)`; `prev` is the Python `prev`
variable (`""` initially and after a `$$` pair, otherwise the last character
copied into `buf`; it is *not* updated when a top-level `;` flushes the
buffer, mirroring the `continue` in the source).
-/

/-- One `prev` value of the Python loop: `none` models `prev = ""`. -/
abbrev PrevChar := Option Char

/-- The single-quote state update of the loop body (`in_single` line). -/
def nextInSingle (c : Char) (inS inD inDol : Bool) (prev : PrevChar) : Bool :=
  if c = '\'' && !inD && prev ≠ some '\\' then
    (if !inDol then !inS else inS) else inS

/-- The double-quote state update of the loop body (the `elif` line).
The source guards this with the single-quote condition being false; since
no character equals both quote characters, the two conditions are never
simultaneously true and the guard is redundant. -/
def nextInDouble (c : Char) (inS inD inDol : Bool) (prev : PrevChar) : Bool :=
  if c = '"' && !inS && prev ≠ some '\\' then
    (if !inDol then !inD else inD) else inD

/-- Core loop of `split_sql_statements`.  `buf` is the pending statement
(in order), `acc` the statements already emitted (in order).  `fuel` only
drives structural recursion (the `$$` branch consumes two characters); every
step consumes at least one character, so any `fuel > l.length` is exact. -/
def splitSqlAux : Nat → List Char → Bool → Bool → Bool → PrevChar →
    List Char → List String → List String
  | 0, _, _, _, _, _, _, acc => acc
  | _ + 1, [], _, _, _, _, buf, acc =>
      let tail := stripList buf
      if tail.isEmpty then acc else acc ++ [String.mk tail]
  | fuel + 1, c :: cs, inS, inD, inDol, prev, buf, acc =>
      if !inS && !inD && c = '$' && (cs.head? = some '$') then
        splitSqlAux fuel cs.tail inS inD (!inDol) none (buf ++ ['$', '$']) acc
      else
        if c = ';' && !(nextInSingle c inS inD inDol prev) &&
            !(nextInDouble c inS inD inDol prev) && !inDol then
          splitSqlAux fuel cs (nextInSingle c inS inD inDol prev)
            (nextInDouble c inS inD inDol prev) inDol prev []
            (if (stripList buf).isEmpty then acc
             else acc ++ [String.mk (stripList buf)])
        else
          splitSqlAux fuel cs (nextInSingle c inS inD inDol prev)
            (nextInDouble c inS inD inDol prev) inDol (some c) (buf ++ [c]) acc

/-- Model of `split_sql_statements` (`core/snowflake_runtime.py`). -/
def splitSqlStatements (sqlText : String) : List String :=
  splitSqlAux (sqlText.toList.length + 1) sqlText.toList false false false none [] []

/-- Analysis companion of `splitSqlAux`: the raw `;`-separated chunks of the
input, with identical scan-state logic but no stripping and no dropping of
empty chunks.  Joining these chunks with `;` reconstructs the input exactly. -/
def rawChunksAux : Nat → List Char → Bool → Bool → Bool → PrevChar →
    List Char → List (List Char)
  | 0, _, _, _, _, _, buf => [buf]
  | _ + 1, [], _, _, _, _, buf => [buf]
  | fuel + 1, c :: cs, inS, inD, inDol, prev, buf =>
      if !inS && !inD && c = '$' && (cs.head? = some '$') then
        rawChunksAux fuel cs.tail inS inD (!inDol) none (buf ++ ['$', '$'])
      else
        if c = ';' && !(nextInSingle c inS inD inDol prev) &&
            !(nextInDouble c inS inD inDol prev) && !inDol then
          buf :: rawChunksAux fuel cs (nextInSingle c inS inD inDol prev)
            (nextInDouble c inS inD inDol prev) inDol prev []
        else
          rawChunksAux fuel cs (nextInSingle c inS inD inDol prev)
            (nextInDouble c inS inD inDol prev) inDol (some c) (buf ++ [c])

/-- The top-level `;`-separated chunks of a SQL text. -/
def rawChunks (sqlText : String) : List String :=
  (rawChunksAux (sqlText.toList.length + 1) sqlText.toList false false false none []).map String.mk

/-- Join character-list chunks with `;` separators. -/
def joinChunksList : List (List Char) → List Char
  | [] => []
  | [c] => c
  | c :: rest => c ++ ';' :: joinChunksList rest

/-! ## `graph/state.py`: stage enumeration and migration context -/

/-- `MigrationState` enum (`graph/state.py`). -/
inductive Stage where
  | idle
  | init_project
  | add_source_code
  | apply_schema_mapping
  | convert_code
  | execute_sql
  | self_heal
  | validate
  | human_review
  | finalize
  | error
  | completed
deriving DecidableEq, Repr

/-- The `.value` string of each `MigrationState` member. -/
def Stage.value : Stage → String
  | .idle => "idle"
  | .init_project => "init_project"
  | .add_source_code => "add_source_code"
  | .apply_schema_mapping => "apply_schema_mapping"
  | .convert_code => "convert_code"
  | .execute_sql => "execute_sql"
  | .self_heal => "self_heal"
  | .validate => "validate"
  | .human_review => "human_review"
  | .finalize => "finalize"
  | .error => "error"
  | .completed => "completed"

/-- A validation / execution issue dict (`type`, `severity`, `message`, and
the two line counts carried by `line_count_regression` issues). -/
structure Issue where
  type : String
  severity : String
  message : String
  input_line_count : Option Nat := none
  output_line_count : Option Nat := none
deriving DecidableEq, Repr

/-- One entry of `execution_errors` (`execute_sql.py`). -/
structure ExecError where
  type : String
  message : String
  object_name : String
  stage : String
  statement : String
  statement_index : Int
deriving DecidableEq, Repr

/-- One per-statement result dict built by `execute_sql_with_chat_runtime`.
Row objects are abstracted to their preview strings. -/
structure StmtResult where
  statement_index : Nat
  status : String
  statement : String
  row_count : Nat
  output_preview : List String
deriving DecidableEq, Repr

/-- One entry of `execution_log` (`execute_sql.py`); unused dict keys of a
given entry shape keep their defaults. -/
structure ExecLogEntry where
  file : String
  index : Int
  status : String
  statements : List StmtResult := []
  error_type : String := ""
  error_message : String := ""
  missing_object : String := ""
  failed_statement : String := ""
  failed_statement_index : Int := -1
deriving DecidableEq, Repr

/-- One entry of `self_heal_log` (`self_heal.py`); timestamps omitted. -/
structure SelfHealLogEntry where
  iteration : Nat
  success : Bool
  fixes_applied : List String := []
  issues_fixed : Nat := 0
  error : String := ""
  llm_provider : String := ""
deriving DecidableEq, Repr

/-- One entry of `decision_history` (`supervisor.py`); timestamp omitted. -/
structure DecisionRecord where
  after_stage : String
  decision : String
  reasoning : String
deriving DecidableEq, Repr

/-- The `line_count_validation` entry of `validation_results`
(`core/integrations.py::validate_code`). -/
structure LineCountValidation where
  passed : Bool
  input_line_count : Nat
  output_line_count : Nat
deriving DecidableEq, Repr

/-- The report context produced by `build_report_context_memory`
(external file scanning, abstracted to the two context fields the
self-heal node stores back). -/
structure ReportContext where
  ignored_codes : List String := []
  actionable_issues : Nat := 0
  ignored_issues : Nat := 0
deriving DecidableEq, Repr

/-- The summary report dict built by `finalize_node`; `completed_at`
omitted (wall clock). -/
structure SummaryReport where
  project_name : String
  source_language : String
  target_platform : String
  scai_project_initialized : Bool
  scai_source_added : Bool
  scai_converted : Bool
  self_heal_iterations : Nat
  validation_passed : Bool
  validation_issues_count : Nat
  errors_count : Nat
  warnings_count : Nat
  output_files_count : Nat
  status : String
deriving DecidableEq, Repr

/-- `MigrationContext` (`graph/state.py`), restricted to the fields read or
written by the embedded nodes.  Datetime fields and the activity-log sink are
omitted (observability only); defaults mirror the dataclass defaults. -/
structure MigrationContext where
  project_name : String := ""
  project_path : String := ""
  source_language : String := "teradata"
  target_platform : String := "snowflake"
  source_files : List String := []
  current_stage : Stage := .idle
  original_code : String := ""
  converted_code : String := ""
  final_code : String := ""
  statement_type : String := "mixed"
  converted_files : List String := []
  scai_project_initialized : Bool := false
  scai_source_added : Bool := false
  scai_converted : Bool := false
  self_heal_iteration : Nat := 0
  max_self_heal_iterations : Nat := 5
  self_heal_log : List SelfHealLogEntry := []
  validation_results : Option LineCountValidation := none
  validation_passed : Bool := false
  validation_issues : List Issue := []
  execution_passed : Bool := false
  execution_errors : List ExecError := []
  execution_log : List ExecLogEntry := []
  missing_objects : List String := []
  last_executed_file_index : Int := -1
  errors : List String := []
  warnings : List String := []
  decision_history : List DecisionRecord := []
  requires_human_intervention : Bool := false
  human_intervention_reason : String := ""
  requires_ddl_upload : Bool := false
  ddl_upload_path : String := ""
  resume_from_stage : String := ""
  supervisor_decision : String := ""
  supervisor_reasoning : String := ""
  report_context : ReportContext := {}
  ignored_report_codes : List String := []
  report_scan_summary : ReportContext := {}
  output_path : String := ""
  output_files : List String := []
  summary_report : Option SummaryReport := none
  session_id : String := ""
  run_id : String := ""
deriving DecidableEq, Repr

/-- A fresh context with the dataclass defaults. -/
def emptyContext : MigrationContext := {}

/-- `is_error_state` (`graph/nodes/helpers.py`). -/
def isErrorState (state : MigrationContext) : Bool :=
  state.current_stage = Stage.error

/-! ## `graph/nodes/finalize.py`

The `os.walk` copy loop is abstracted by the `copiedOutputs` parameter: the
destination paths of the files copied from `<project>/converted` into
`outputs/<project>/converted/` (empty when the converted directory does not
exist).  POSIX path joining is used for `os.path.join`.
-/

/-- Model of `finalize_node`. -/
def finalizeNode (copiedOutputs : List String) (state : MigrationContext) :
    MigrationContext :=
  if isErrorState state then state
  else
    let outputDir := "outputs/" ++ state.project_name
    let state := { state with output_files := state.output_files ++ copiedOutputs }
    let report : SummaryReport := {
      project_name := state.project_name
      source_language := state.source_language
      target_platform := state.target_platform
      scai_project_initialized := state.scai_project_initialized
      scai_source_added := state.scai_source_added
      scai_converted := state.scai_converted
      self_heal_iterations := state.self_heal_iteration
      validation_passed := state.validation_passed
      validation_issues_count := state.validation_issues.length
      errors_count := state.errors.length
      warnings_count := state.warnings.length
      output_files_count := state.output_files.length
      status := "completed" }
    { state with
      summary_report := some report
      output_path := outputDir
      validation_passed := true
      current_stage := Stage.completed }

/-! ## `core/integrations.py`: `validate_code` and `graph/nodes/validate.py`

The filesystem is the parameter `fs : String → Option String`: `fs path`
is the file content when `path` names a readable regular file, `none`
otherwise (matching the `not os.path.isfile` / read-exception `continue`
branches of `_count_lines_from_files`).
-/

/-- Loop of `_count_lines_from_files`. -/
def countLinesFromFilesAux (fs : String → Option String) :
    List String → Nat → Bool → Option Nat
  | [], total, found => if found then some total else none
  | p :: rest, total, found =>
      match (if p = "" then none else fs p) with
      | none => countLinesFromFilesAux fs rest total found
      | some text => countLinesFromFilesAux fs rest (total + countLines text) true

/-- Model of `_count_lines_from_files` (`core/integrations.py`). -/
def countLinesFromFiles (fs : String → Option String) (paths : List String) :
    Option Nat :=
  countLinesFromFilesAux fs paths 0 false

/-- Result record of `validate_code`. -/
structure ValidationResult where
  passed : Bool
  issues : List Issue
  results : Option LineCountValidation
deriving DecidableEq, Repr

/-- Model of `validate_code` (`core/integrations.py`), in the configuration
used by `validate_node` (a context is always supplied). -/
def validateCode (fs : String → Option String) (code : String)
    (originalCode : Option String) (state : MigrationContext) : ValidationResult :=
  let inputFromFiles := countLinesFromFiles fs state.source_files
  let outputFromFiles := countLinesFromFiles fs state.converted_files
  let inputLineCount :=
    match inputFromFiles with
    | some n => n
    | none =>
        countLines (match originalCode with
          | some oc => oc
          | none => state.original_code)
  let outputLineCount :=
    match outputFromFiles with
    | some n => n
    | none => countLines code
  let passed := decide (outputLineCount ≥ inputLineCount)
  let results : LineCountValidation := {
    passed := passed
    input_line_count := inputLineCount
    output_line_count := outputLineCount }
  let issues : List Issue :=
    if passed then []
    else [{
      type := "line_count_regression"
      severity := "error"
      message := "Output line count (" ++ toString outputLineCount ++
        ") is less than input line count (" ++ toString inputLineCount ++ ")."
      input_line_count := some inputLineCount
      output_line_count := some outputLineCount }]
  { passed := passed, issues := issues, results := some results }

/-- Model of `validate_node` (`graph/nodes/validate.py`).  The
`log_callback` warnings appended while formatting the report are omitted
(observability only). -/
def validateNode (fs : String → Option String) (state : MigrationContext) :
    MigrationContext :=
  if isErrorState state then state
  else
    let state := { state with current_stage := Stage.validate, validation_issues := [] }
    if state.converted_code = "" then
      { state with
        warnings := state.warnings ++ ["No code available for validation"]
        validation_passed := false
        validation_issues := state.validation_issues ++
          [{ type := "validation_error", severity := "error"
             message := "No code available for validation" }] }
    else
      let vr := validateCode fs state.converted_code
        (if state.original_code = "" then none else some state.original_code) state
      let state := { state with
        validation_passed := vr.passed
        validation_issues := vr.issues
        validation_results := vr.results }
      if vr.passed then { state with final_code := state.converted_code } else state

/-! ## `graph/nodes/self_heal.py`

`build_report_context_memory` (filesystem + report scanning) is abstracted by
the `report` parameter; `apply_self_healing` (the Cortex LLM call) by
`heal : Except String HealResult`, where `.error e` models an exception with
message `e`.  Persisting the healed code to disk and the `log_callback`
warnings are omitted (filesystem / observability side effects).
-/

/-- Result record of `apply_self_healing` (`core/integrations.py`). -/
structure HealResult where
  success : Bool
  fixed_code : String
  fixes_applied : List String := []
  issues_fixed : Nat := 0
  error_message : String := ""
deriving DecidableEq, Repr

/-- Model of `self_heal_node`.  Note the iteration counter is incremented
unconditionally at the top of the `try` block, before any budget check. -/
def selfHealNode (report : ReportContext) (heal : Except String HealResult)
    (state : MigrationContext) : MigrationContext :=
  if isErrorState state then state
  else
    let state := { state with
      self_heal_iteration := state.self_heal_iteration + 1
      current_stage := Stage.self_heal
      report_context := report
      ignored_report_codes := report.ignored_codes
      report_scan_summary := report }
    if state.converted_code = "" then
      { state with warnings := state.warnings ++ ["No code available for self-healing"] }
    else
      match heal with
      | .error e =>
          let errorMsg := "Exception during self-healing: " ++ e
          { state with
            errors := state.errors ++ [errorMsg]
            current_stage := Stage.error
            self_heal_log := state.self_heal_log ++
              [{ iteration := state.self_heal_iteration, success := false
                 error := errorMsg }] }
      | .ok hr =>
          if hr.success then
            let state := { state with converted_code := hr.fixed_code }
            let state :=
              if hr.issues_fixed = 0 ||
                  state.self_heal_iteration ≥ state.max_self_heal_iterations then
                { state with final_code := hr.fixed_code }
              else state
            { state with self_heal_log := state.self_heal_log ++
                [{ iteration := state.self_heal_iteration, success := true
                   fixes_applied := hr.fixes_applied
                   issues_fixed := hr.issues_fixed
                   llm_provider := "snowflake_cortex" }] }
          else
            let errorMsg :=
              if hr.error_message = "" then "Self-healing failed" else hr.error_message
            { state with
              errors := state.errors ++
                ["[Self-Heal Iter " ++ toString state.self_heal_iteration ++ "] " ++ errorMsg]
              self_heal_log := state.self_heal_log ++
                [{ iteration := state.self_heal_iteration, success := false
                   error := hr.error_message
                   llm_provider := "snowflake_cortex" }] }

/-! ## Model of Python `json.loads`

A standard JSON value parser.  Numbers keep their source lexeme (the claims
never compute with them); `\uXXXX` escapes map to the corresponding scalar
when valid (surrogate pairs are not combined — no claim input uses them);
unescaped control characters are rejected, as in strict `json.loads`.
Duplicate object keys are kept in order; lookups take the last occurrence,
matching Python dict insertion semantics.
-/

/-- JSON values. -/
inductive Json where
  | null
  | bool (b : Bool)
  | num (lexeme : String)
  | str (s : String)
  | arr (items : List Json)
  | obj (pairs : List (String × Json))
deriving Repr

/-- JSON whitespace per RFC 8259 (what `json.loads` skips). -/
def isJsonWs (c : Char) : Bool :=
  c = ' ' || c = '\t' || c = '\n' || c = '\r'

/-- Skip JSON whitespace. -/
def jsonSkipWs (cs : List Char) : List Char := cs.dropWhile isJsonWs

/-- Hexadecimal digit value (by code point: `0-9`, `a-f`, `A-F`). -/
def hexVal (c : Char) : Option Nat :=
  let n := c.toNat
  if 48 ≤ n && n ≤ 57 then some (n - 48)
  else if 97 ≤ n && n ≤ 102 then some (n - 87)
  else if 65 ≤ n && n ≤ 70 then some (n - 55)
  else none

/-- Parse a JSON string body (after the opening quote). -/
def parseJStr : Nat → List Char → List Char → Option (String × List Char)
  | 0, _, _ => none
  | _ + 1, [], _ => none
  | _ + 1, '"' :: rest, acc => some (String.mk acc.reverse, rest)
  | f + 1, '\\' :: rest, acc =>
      match rest with
      | [] => none
      | e :: rest2 =>
          if e = '"' then parseJStr f rest2 ('"' :: acc)
          else if e = '\\' then parseJStr f rest2 ('\\' :: acc)
          else if e = '/' then parseJStr f rest2 ('/' :: acc)
          else if e = 'b' then parseJStr f rest2 ('\x08' :: acc)
          else if e = 'f' then parseJStr f rest2 ('\x0c' :: acc)
          else if e = 'n' then parseJStr f rest2 ('\n' :: acc)
          else if e = 'r' then parseJStr f rest2 ('\r' :: acc)
          else if e = 't' then parseJStr f rest2 ('\t' :: acc)
          else if e = 'u' then
            match rest2 with
            | h1 :: h2 :: h3 :: h4 :: rest3 =>
                match hexVal h1, hexVal h2, hexVal h3, hexVal h4 with
                | some a, some b, some c, some d =>
                    parseJStr f rest3 (Char.ofNat (((a * 16 + b) * 16 + c) * 16 + d) :: acc)
                | _, _, _, _ => none
            | _ => none
          else none
  | f + 1, c :: rest, acc =>
      if c.toNat < 32 then none else parseJStr f rest (c :: acc)

/-- Take a run of decimal digits. -/
def takeDigits (cs : List Char) : List Char × List Char :=
  (cs.takeWhile Char.isDigit, cs.dropWhile Char.isDigit)

/-- Parse a JSON number, returning its lexeme. -/
def parseJNum (cs : List Char) : Option (String × List Char) :=
  let (sign, cs1) :=
    match cs with
    | '-' :: rest => (['-'], rest)
    | _ => (([] : List Char), cs)
  match cs1 with
  | [] => none
  | c :: _ =>
      if !c.isDigit then none
      else
        let (intPart, cs2) :=
          match cs1 with
          | '0' :: rest => (['0'], rest)
          | _ => takeDigits cs1
        let (fracPart, cs3) :=
          match cs2 with
          | '.' :: rest =>
              let (ds, rest2) := takeDigits rest
              if ds.isEmpty then ([], cs2) else ('.' :: ds, rest2)
          | _ => (([] : List Char), cs2)
        -- a '.' not followed by digits makes json.loads fail; model: fail
        if (match cs2 with | '.' :: _ => fracPart.isEmpty | _ => false) then none
        else
          let expPart : Option (List Char × List Char) :=
            match cs3 with
            | e :: rest =>
                if e = 'e' || e = 'E' then
                  let (sgn, rest2) :=
                    match rest with
                    | '+' :: r => (['+'], r)
                    | '-' :: r => (['-'], r)
                    | _ => (([] : List Char), rest)
                  let (ds, rest3) := takeDigits rest2
                  if ds.isEmpty then none
                  else some (e :: (sgn ++ ds), rest3)
                else some ([], cs3)
            | [] => some ([], cs3)
          match expPart with
          | none => none
          | some (ep, cs5) =>
              some (String.mk (sign ++ intPart ++ fracPart ++ ep), cs5)

mutual

/-- Parse one JSON value at the head of `cs`. -/
def parseJVal : Nat → List Char → Option (Json × List Char)
  | 0, _ => none
  | f + 1, cs =>
      match cs with
      | 'n' :: 'u' :: 'l' :: 'l' :: rest => some (Json.null, rest)
      | 't' :: 'r' :: 'u' :: 'e' :: rest => some (Json.bool true, rest)
      | 'f' :: 'a' :: 'l' :: 's' :: 'e' :: rest => some (Json.bool false, rest)
      | '"' :: rest =>
          match parseJStr f rest [] with
          | some (s, rest2) => some (Json.str s, rest2)
          | none => none
      | c :: rest =>
          if c = lbrace then parseJObjBody f rest
          else if c = '[' then parseJArrBody f rest
          else if c = '-' || c.isDigit then
            match parseJNum cs with
            | some (l, rest2) => some (Json.num l, rest2)
            | none => none
          else none
      | [] => none

/-- Parse an object body (after the opening brace). -/
def parseJObjBody : Nat → List Char → Option (Json × List Char)
  | 0, _ => none
  | f + 1, cs =>
      let r := jsonSkipWs cs
      match r with
      | c :: rest =>
          if c = rbrace then some (Json.obj [], rest)
          else parseJMembers f r []
      | [] => none

/-- Parse object members (cursor at the opening quote of a key). -/
def parseJMembers : Nat → List Char → List (String × Json) →
    Option (Json × List Char)
  | 0, _, _ => none
  | f + 1, cs, acc =>
      match cs with
      | '"' :: rest =>
          match parseJStr f rest [] with
          | none => none
          | some (key, rest2) =>
              match jsonSkipWs rest2 with
              | ':' :: rest3 =>
                  match parseJVal f (jsonSkipWs rest3) with
                  | none => none
                  | some (v, rest4) =>
                      match jsonSkipWs rest4 with
                      | ',' :: rest5 =>
                          parseJMembers f (jsonSkipWs rest5) (acc ++ [(key, v)])
                      | c :: rest5 =>
                          if c = rbrace then some (Json.obj (acc ++ [(key, v)]), rest5)
                          else none
                      | [] => none
              | _ => none
      | _ => none

/-- Parse an array body (after the opening bracket). -/
def parseJArrBody : Nat → List Char → Option (Json × List Char)
  | 0, _ => none
  | f + 1, cs =>
      match jsonSkipWs cs with
      | ']' :: rest => some (Json.arr [], rest)
      | r => parseJElems f r []

/-- Parse array elements (cursor at the start of an element). -/
def parseJElems : Nat → List Char → List Json → Option (Json × List Char)
  | 0, _, _ => none
  | f + 1, cs, acc =>
      match parseJVal f cs with
      | none => none
      | some (v, rest) =>
          match jsonSkipWs rest with
          | ',' :: rest2 => parseJElems f (jsonSkipWs rest2) (acc ++ [v])
          | ']' :: rest2 => some (Json.arr (acc ++ [v]), rest2)
          | _ => none

end

/-- Model of `json.loads`: parse a complete JSON document. -/
def jsonParse (s : String) : Option Json :=
  let cs := jsonSkipWs s.toList
  match parseJVal (s.toList.length * 8 + 8) cs with
  | some (v, rest) => if (jsonSkipWs rest).isEmpty then some v else none
  | none => none

/-- Python `dict.get` on parsed-JSON members (duplicates: last wins). -/
def objGet (members : List (String × Json)) (key : String) : Option Json :=
  (members.reverse.find? (fun m => m.1 = key)).map (·.2)

mutual

/-- Model of Python `repr` on JSON-derived values (used only through
`pyStr` on containers, where the exact text never matches a decision word). -/
def pyReprJson : Json → String
  | .null => "None"
  | .bool true => "True"
  | .bool false => "False"
  | .num l => l
  | .str s => "'" ++ s ++ "'"
  | .arr es => "[" ++ pyReprJsonList es ++ "]"
  | .obj ms => String.singleton lbrace ++ pyReprJsonMembers ms ++ String.singleton rbrace

/-- `repr` of list elements, comma separated. -/
def pyReprJsonList : List Json → String
  | [] => ""
  | [e] => pyReprJson e
  | e :: rest => pyReprJson e ++ ", " ++ pyReprJsonList rest

/-- `repr` of dict members, comma separated. -/
def pyReprJsonMembers : List (String × Json) → String
  | [] => ""
  | [(k, v)] => "'" ++ k ++ "': " ++ pyReprJson v
  | (k, v) :: rest => "'" ++ k ++ "': " ++ pyReprJson v ++ ", " ++ pyReprJsonMembers rest

end

/-- Model of Python `str()` on a parsed JSON value. -/
def pyStr : Json → String
  | .null => "None"
  | .bool true => "True"
  | .bool false => "False"
  | .num l => l
  | .str s => s
  | .arr es => "[" ++ pyReprJsonList es ++ "]"
  | .obj ms => String.singleton lbrace ++ pyReprJsonMembers ms ++ String.singleton rbrace

example : jsonParse "  \x7b\"a\": 1, \"b\": [true, null]\x7d " =
    some (Json.obj [("a", Json.num "1"), ("b", Json.arr [Json.bool true, Json.null])]) :=
  rfl
example : jsonParse "\x7b\"a\": \x7d" = none := rfl
example : jsonParse "\"x\\n\"" = some (Json.str "x\n") := rfl

/-! ## `graph/nodes/supervisor.py`

The Cortex call is abstracted by `LLMOutcome`: `.unavailable` is the "no
Snowflake session" path and the "LLM call raised" path (both run
`_deterministic_fallback`; the exception path only prefixes the reasoning
text); `.reply raw` is a successful call returning `raw`.
-/

/-- Python `s[:n]`. -/
def pyTake (n : Nat) (s : String) : String := String.mk (s.toList.take n)

/-- `_ALLOWED_DECISIONS.get(stage, ["proceed", "abort"])`. -/
def allowedDecisions (stage : String) : List String :=
  if stage = "init_project" then ["proceed", "abort"]
  else if stage = "add_source_code" then ["proceed", "abort"]
  else if stage = "apply_schema_mapping" then ["proceed", "abort"]
  else if stage = "convert_code" then ["proceed", "abort"]
  else if stage = "execute_sql" then
    ["proceed", "self_heal", "human_review", "finalize", "abort"]
  else if stage = "self_heal" then ["proceed", "self_heal", "finalize", "abort"]
  else if stage = "validate" then ["proceed", "self_heal", "finalize", "abort"]
  else if stage = "human_review" then ["proceed", "abort"]
  else if stage = "finalize" then ["proceed"]
  else ["proceed", "abort"]

/-- The markdown-fence stripping prologue of `_parse_supervisor_response`
(`text = raw.strip()` plus the fence removal). -/
def supervisorFenceStrip (raw : String) : String :=
  let text := pyStrip raw
  if pyStartsWith text "```" then
    let lines := pySplitlines text
    if lines.length ≥ 2 then
      let lastIsFence :=
        match lines.getLast? with
        | some l => pyStartsWith l "```"
        | none => false
      let body := if lastIsFence then (lines.drop 1).dropLast else lines.drop 1
      pyStrip (joinWith "\n" body)
    else text
  else text

/-- The `except` path of `_parse_supervisor_response`: scan the (lowered)
text for the first allowed option occurring as a substring. -/
def supervisorTextScan (text : String) (allowed : List String) : String × String :=
  match allowed.find? (fun option => pyContains (pyLower text) option) with
  | some option => (option, "(Parsed from text) " ++ pyTake 200 text)
  | none => ("proceed", "(Parse failed, defaulting to proceed) " ++ pyTake 200 text)

/-- The decision string a parsed supervisor JSON object declares:
`str(parsed.get("decision", "proceed")).strip().lower()`. -/
def declaredDecision (members : List (String × Json)) : String :=
  pyLower (pyStrip (pyStr (match objGet members "decision" with
    | some v => v
    | none => Json.str "proceed")))

/-- Model of `_parse_supervisor_response`: returns `(decision, reasoning)`.
A non-dict JSON value raises `AttributeError` at `.get`, landing in the same
`except` clause as a decode error. -/
def parseSupervisorResponse (raw : String) (allowed : List String) :
    String × String :=
  match jsonParse (supervisorFenceStrip raw) with
  | some (Json.obj members) =>
      let decision := declaredDecision members
      let reasoning :=
        pyStrip (pyStr (match objGet members "reasoning" with
          | some v => v
          | none => Json.str ""))
      if allowed.contains decision then (decision, reasoning)
      else ("proceed", reasoning)
  | some _ => supervisorTextScan (supervisorFenceStrip raw) allowed
  | none => supervisorTextScan (supervisorFenceStrip raw) allowed

/-- Model of `_deterministic_fallback`. -/
def deterministicFallback (state : MigrationContext) (allowed : List String) :
    String × String :=
  let stage := state.current_stage.value
  if state.current_stage = Stage.error then
    ("finalize", "Error state detected, finalizing.")
  else if stage = Stage.execute_sql.value then
    if state.execution_passed then
      ("proceed", "Execution passed, proceeding to validation.")
    else if !state.missing_objects.isEmpty && allowed.contains "human_review" then
      ("human_review", "Missing objects: " ++ joinWith ", " state.missing_objects)
    else if allowed.contains "self_heal" then
      ("self_heal", "Execution failed, attempting self-heal.")
    else
      ("finalize", "Execution failed, no recovery options.")
  else if stage = Stage.validate.value then
    if state.validation_passed then ("proceed", "Validation passed.")
    else if state.self_heal_iteration < state.max_self_heal_iterations &&
        allowed.contains "self_heal" then
      ("self_heal", "Validation failed, self-heal iteration " ++
        toString (state.self_heal_iteration + 1) ++ ".")
    else ("finalize", "Validation failed, max retries reached.")
  else if stage = Stage.self_heal.value then
    ("proceed", "Self-heal complete, proceeding to validation.")
  else
    ("proceed", "Step " ++ stage ++ " completed, proceeding.")

/-- Outcome of the supervisor LLM call. -/
inductive LLMOutcome where
  | unavailable
  | reply (raw : String)

/-- Model of `supervisor_node`.  Records `(supervisor_decision,
supervisor_reasoning)` and appends to `decision_history`; the early returns
for error/completed and for an active human-review pause skip both the LLM
call and the history append, exactly as in the source. -/
def supervisorNode (state : MigrationContext) (llm : LLMOutcome) :
    MigrationContext :=
  let stage := state.current_stage.value
  let allowed := allowedDecisions stage
  if state.current_stage = Stage.error || state.current_stage = Stage.completed then
    { state with
      supervisor_decision :=
        if state.current_stage = Stage.error then "finalize" else "proceed"
      supervisor_reasoning := "Stage is " ++ stage ++ ", auto-routing." }
  else if state.current_stage = Stage.human_review &&
      state.requires_human_intervention then
    { state with
      supervisor_decision := "human_review"
      supervisor_reasoning := "Human intervention is required. Pausing workflow." }
  else
    let (decision, reasoning) :=
      match llm with
      | .unavailable => deterministicFallback state allowed
      | .reply raw => parseSupervisorResponse (pyStrip raw) allowed
    { state with
      supervisor_decision := decision
      supervisor_reasoning := reasoning
      decision_history := state.decision_history ++
        [{ after_stage := stage, decision := decision, reasoning := reasoning }] }

/-! ## `graph/scai_workflow.py`: routing and the compiled graph -/

/-- `_PROCEED_TARGET.get(stage, "finalize")`, with the LangGraph `END`
sentinel modelled by its literal value. -/
def proceedTarget (stage : String) : String :=
  if stage = "init_project" then "add_source_code"
  else if stage = "add_source_code" then "apply_schema_mapping"
  else if stage = "apply_schema_mapping" then "convert_code"
  else if stage = "convert_code" then "execute_sql"
  else if stage = "execute_sql" then "validate"
  else if stage = "self_heal" then "validate"
  else if stage = "validate" then "finalize"
  else if stage = "human_review" then "execute_sql"
  else if stage = "finalize" then "__end__"
  else "finalize"

/-- Model of `route_after_supervisor`: the (possibly mutated) context and
the name of the next node. -/
def routeAfterSupervisor (state : MigrationContext) : MigrationContext × String :=
  let decision := state.supervisor_decision
  let stage := state.current_stage.value
  if decision = "abort" then
    ({ state with
        current_stage := Stage.error
        errors := state.errors ++ ["Supervisor aborted: " ++ state.supervisor_reasoning] },
      "finalize")
  else if decision = "self_heal" then (state, "self_heal")
  else if decision = "human_review" then (state, "human_review")
  else if decision = "finalize" then (state, "finalize")
  else (state, proceedTarget stage)

/-- Static shape of the compiled LangGraph. -/
structure CompiledGraph where
  entry_point : String
  task_edges : List (String × String)
  conditional_source : String
  conditional_targets : List String

/-- Model of `build_migration_graph`: nodes, edges and the fixed entry
point registered by `graph.set_entry_point`. -/
def buildMigrationGraph : CompiledGraph := {
  entry_point := "init_project"
  task_edges := [
    ("init_project", "supervisor"), ("add_source_code", "supervisor"),
    ("apply_schema_mapping", "supervisor"), ("convert_code", "supervisor"),
    ("execute_sql", "supervisor"), ("self_heal", "supervisor"),
    ("validate", "supervisor"), ("human_review", "supervisor"),
    ("finalize", "__end__")]
  conditional_source := "supervisor"
  conditional_targets := [
    "add_source_code", "apply_schema_mapping", "convert_code", "execute_sql",
    "self_heal", "validate", "human_review", "finalize", "__end__"] }

/-! ## `services/workflow_runner.py`: resume -/

/-- The context mutation performed by `resume_workflow_stream` before it
re-streams the workflow: clear the intervention flag and set the stage to
`execute_sql`.  The subsequent `run_workflow_stream` call starts
`compiled_graph.astream` at `buildMigrationGraph.entry_point`. -/
def resumeWorkflowPrep (state : MigrationContext) : MigrationContext :=
  { state with
    requires_human_intervention := false
    current_stage := Stage.execute_sql }

/-! ## `core/snowflake_runtime.py`: error classification and execution

`chat_model.session.sql(statement).collect()` is abstracted by
`db : String → Except String (List String)`: either the collected rows
(already stringified, as in the preview loop) or the exception message.
-/

/-- Model of `classify_snowflake_error`: the object-name extraction loop.
For each token in order: if the token occurs, take the text from just after
its first occurrence up to the next single quote (`ValueError` from a
missing quote falls through to the next token). -/
def extractTokenName (msg : List Char) (token : List Char) : Option String :=
  match listIndexOfSub msg token with
  | none => none
  | some i =>
      let after := msg.drop (i + token.length)
      match listIndexOfSub after ['\''] with
      | none => none
      | some j => some (String.mk (after.take j))

/-- First token whose extraction succeeds. -/
def extractObjectName (msg : List Char) : List (List Char) → String
  | [] => ""
  | token :: rest =>
      match extractTokenName msg token with
      | some name => name
      | none => extractObjectName msg rest

/-- Model of `classify_snowflake_error` (`core/snowflake_runtime.py`). -/
def classifySnowflakeError (errorMessage : String) : String × String :=
  let lowered := pyLower errorMessage
  let missingPatterns := [
    "does not exist or not authorized", "does not exist",
    "object does not exist", "table does not exist", "schema does not exist"]
  if missingPatterns.any (fun pattern => pyContains lowered pattern) then
    let tokens : List (List Char) := [
      "Object '".toList, "object '".toList, "Table '".toList,
      "table '".toList, "\"".toList]
    ("missing_object", extractObjectName errorMessage.toList tokens)
  else ("execution_error", "")

/-- The exception context reaching the `except` clause of
`execute_sql_node`: message, plus the `SQLExecutionError` attributes when
the exception carries them (defaults model `hasattr(exc, "statement")`
being false). -/
structure ExcInfo where
  message : String
  statement : String := ""
  statement_index : Int := -1
  partial_results : List StmtResult := []
deriving DecidableEq, Repr

/-- Loop of `execute_sql_with_chat_runtime`. -/
def execStmtsAux (db : String → Except String (List String)) :
    List String → Nat → List StmtResult → Except ExcInfo (List StmtResult)
  | [], _, results => .ok results
  | stmt :: rest, idx, results =>
      match db stmt with
      | .ok rows =>
          execStmtsAux db rest (idx + 1) (results ++ [{
            statement_index := idx
            status := "success"
            statement := stmt
            row_count := rows.length
            output_preview := rows.take 5 }])
      | .error msg =>
          .error { message := msg, statement := stmt
                   statement_index := (idx : Int), partial_results := results }

/-- Model of `execute_sql_with_chat_runtime`. -/
def executeSqlWithChatRuntime (db : String → Except String (List String))
    (sqlText : String) : Except ExcInfo (List StmtResult) :=
  execStmtsAux db (splitSqlStatements sqlText) 0 []

/-! ## `graph/nodes/execute_sql.py`

The converted-directory listing (`list_sql_files`) is the parameter
`sqlFiles`; file contents come from `fs`.
-/

/-- Model of `_apply_uploaded_ddl`. -/
def applyUploadedDdl (db : String → Except String (List String))
    (fs : String → Option String) (state : MigrationContext) : MigrationContext :=
  match (if state.ddl_upload_path = "" then none else fs state.ddl_upload_path) with
  | none =>
      { state with
        current_stage := Stage.human_review
        requires_human_intervention := true
        human_intervention_reason := "DDL upload is required to resolve missing objects." }
  | some ddlSql =>
      if pyStrip ddlSql = "" then
        { state with
          current_stage := Stage.human_review
          requires_human_intervention := true
          human_intervention_reason := "Uploaded DDL file is empty." }
      else
        match executeSqlWithChatRuntime db ddlSql with
        | .ok _ =>
            { state with
              requires_ddl_upload := false
              ddl_upload_path := ""
              resume_from_stage := "execute_sql"
              requires_human_intervention := false
              human_intervention_reason := "" }
        | .error e =>
            let errorMsg := "Failed to execute uploaded DDL: " ++ e.message
            { state with
              errors := state.errors ++ [errorMsg]
              current_stage := Stage.human_review
              requires_human_intervention := true
              requires_ddl_upload := true
              human_intervention_reason := errorMsg }

/-- The per-file loop of `execute_sql_node`, from absolute file index `idx`
over the remaining files.  Returns the accumulated context and the exception
reaching the `except` clause, if any.  A read failure is modelled as an
exception without `SQLExecutionError` attributes. -/
def execFilesAux (db : String → Except String (List String))
    (fs : String → Option String) :
    List String → Nat → MigrationContext → MigrationContext × Option ExcInfo
  | [], _, state => (state, none)
  | sqlFile :: rest, idx, state =>
      match fs sqlFile with
      | none => (state, some { message := "could not read " ++ sqlFile })
      | some sqlText =>
          if pyStrip sqlText = "" then
            execFilesAux db fs rest (idx + 1) { state with
              execution_log := state.execution_log ++
                [{ file := sqlFile, index := (idx : Int), status := "skipped_empty" }]
              last_executed_file_index := (idx : Int) }
          else
            match executeSqlWithChatRuntime db sqlText with
            | .error e => (state, some e)
            | .ok results =>
                execFilesAux db fs rest (idx + 1) { state with
                  execution_log := state.execution_log ++
                    [{ file := sqlFile, index := (idx : Int), status := "success"
                       statements := results }]
                  last_executed_file_index := (idx : Int) }

/-- The `except` clause of `execute_sql_node` (classification, error
recording, and routing set-up). -/
def handleExecError (sqlFiles : List String) (state : MigrationContext)
    (e : ExcInfo) : MigrationContext :=
  let errorMessage := e.message
  let (errorType, objectName) := classifySnowflakeError errorMessage
  let failFile :=
    if !sqlFiles.isEmpty && state.last_executed_file_index + 1 < sqlFiles.length then
      sqlFiles.getD (state.last_executed_file_index + 1).toNat "unknown"
    else "unknown"
  let state := { state with
    execution_passed := false
    execution_errors := state.execution_errors ++ [({
      type := errorType, message := errorMessage, object_name := objectName
      stage := "execute_sql", statement := e.statement
      statement_index := e.statement_index } : ExecError)]
    execution_log := state.execution_log ++ [({
      file := failFile
      index := state.last_executed_file_index + 1
      status := "failed", error_type := errorType
      error_message := errorMessage, missing_object := objectName
      statements := e.partial_results
      failed_statement := e.statement
      failed_statement_index := e.statement_index } : ExecLogEntry)] }
  if errorType = "missing_object" then
    let state :=
      if objectName ≠ "" then
        let normalized := pyStrip objectName
        if normalized ≠ "" && !state.missing_objects.contains normalized then
          { state with missing_objects := state.missing_objects ++ [normalized] }
        else state
      else state
    let state := { state with
      requires_ddl_upload := true
      requires_human_intervention := true
      resume_from_stage := "execute_sql"
      current_stage := Stage.human_review }
    let missingDetail :=
      if !state.missing_objects.isEmpty then joinWith ", " state.missing_objects
      else "unresolved object"
    { state with human_intervention_reason :=
        "Missing object detected: " ++ missingDetail ++
        ". Upload DDL script to create required objects, then resume." }
  else
    { state with validation_issues := state.validation_issues ++ [({
        type := "execution_error", severity := "error", message := errorMessage } : Issue)] }

/-- Model of `execute_sql_node`. -/
def executeSqlNode (db : String → Except String (List String))
    (fs : String → Option String) (sqlFiles : List String)
    (state : MigrationContext) : MigrationContext :=
  if isErrorState state then state
  else
    let state := { state with current_stage := Stage.execute_sql }
    let state :=
      if state.requires_ddl_upload then applyUploadedDdl db fs state else state
    if state.requires_ddl_upload then state
    else
      let afterTry : MigrationContext × Option ExcInfo :=
        if !sqlFiles.isEmpty then
          let startIndex := (max 0 (state.last_executed_file_index + 1)).toNat
          execFilesAux db fs (sqlFiles.drop startIndex) startIndex state
        else if pyStrip state.converted_code ≠ "" then
          match executeSqlWithChatRuntime db state.converted_code with
          | .error e => (state, some e)
          | .ok results =>
              ({ state with
                  execution_log := state.execution_log ++
                    [{ file := "in_memory_converted_code", index := 0
                       status := "success", statements := results }]
                  last_executed_file_index := 0 }, none)
        else
          (state, some { message :=
            "No converted SQL files or converted_code found for execution." })
      match afterTry with
      | (state, none) =>
          { state with
            execution_passed := true
            execution_errors := []
            missing_objects := []
            validation_issues := [] }
      | (state, some e) => handleExecError sqlFiles state e

/-! ## `services/cortex_chat_service.py`: `_try_parse_tool_call` -/

/-- The fence-stripping loop of `_try_parse_tool_call` (over the lines of
`cleaned.split("\n")`). -/
def chatFenceLoop : List String → Bool → List String → List String
  | [], _, acc => acc
  | line :: rest, inBlock, acc =>
      if pyStartsWith (pyStrip line) "```" && !inBlock then
        chatFenceLoop rest true acc
      else if pyStrip line = "```" && inBlock then acc
      else if inBlock then chatFenceLoop rest inBlock (acc ++ [line])
      else chatFenceLoop rest inBlock acc

/-- Markdown-fence stripping of `_try_parse_tool_call`. -/
def chatStripFences (cleaned : String) : String :=
  if pyStartsWith cleaned "```" then
    pyStrip (joinWith "\n" (chatFenceLoop (cleaned.split (fun c => c = '\n')) false []))
  else cleaned

/-- The inner balanced-brace scan of `_extract_json_objects`, started at an
opening brace: returns the balanced candidate and the remaining text, or
`none` when the input ends unbalanced. -/
def scanBalanced : List Char → Nat → Bool → Bool → List Char →
    Option (List Char × List Char)
  | [], _, _, _, _ => none
  | c :: rest, depth, inString, escNext, acc =>
      if escNext then scanBalanced rest depth inString false (acc ++ [c])
      else if c = '\\' && inString then scanBalanced rest depth inString true (acc ++ [c])
      else if c = '"' then scanBalanced rest depth (!inString) false (acc ++ [c])
      else if !inString && c = lbrace then
        scanBalanced rest (depth + 1) inString false (acc ++ [c])
      else if !inString && c = rbrace then
        if depth = 1 then some (acc ++ [c], rest)
        else scanBalanced rest (depth - 1) inString false (acc ++ [c])
      else scanBalanced rest depth inString false (acc ++ [c])

/-- Model of `_extract_json_objects`: all balanced top-level brace-delimited
substrings, scanning left to right and resuming after each candidate.
`fuel > length` is exact (every step consumes at least one character). -/
def extractJsonObjects : Nat → List Char → List (List Char)
  | 0, _ => []
  | _ + 1, [] => []
  | fuel + 1, c :: rest =>
      if c = lbrace then
        match scanBalanced (c :: rest) 0 false false [] with
        | some (obj, rest2) => obj :: extractJsonObjects fuel rest2
        | none => []
      else extractJsonObjects fuel rest

/-- The accepted `action` values of a chat decision object. -/
def isToolCallValue : Option Json → Bool
  | some (Json.str s) =>
      s = "run_command" || s = "run_tool" || s = "finish" || s = "pause"
  | _ => false

/-- The candidate loop of `_try_parse_tool_call`: the first candidate that
parses as a dict with an accepted `action` wins; parse failures and valid
JSON without an accepted action fall through to the next candidate. -/
def firstToolCall : List (List Char) → Option Json
  | [] => none
  | cand :: rest =>
      match jsonParse (String.mk cand) with
      | some (Json.obj members) =>
          if isToolCallValue (objGet members "action") then some (Json.obj members)
          else firstToolCall rest
      | _ => firstToolCall rest

/-- The balanced-brace candidates scanned by `_try_parse_tool_call` after
stripping and fence removal. -/
def chatCandidates (text : String) : List (List Char) :=
  extractJsonObjects ((chatStripFences (pyStrip text)).toList.length + 1)
    (chatStripFences (pyStrip text)).toList

/-- Whether one candidate substring is accepted by the loop of
`_try_parse_tool_call`: valid JSON object with an accepted `action`. -/
def goodToolCandidate (cand : List Char) : Bool :=
  match jsonParse (String.mk cand) with
  | some (Json.obj members) => isToolCallValue (objGet members "action")
  | _ => false

/-- Model of `_try_parse_tool_call` (`services/cortex_chat_service.py`). -/
def tryParseToolCall (text : String) : Option Json :=
  firstToolCall (chatCandidates text)

/-- The first balanced top-level brace-delimited substring of the cleaned
text (what the spec's parsing claim quantifies over). -/
def firstBalancedObject (text : String) : Option String :=
  (chatCandidates text).head?.map String.mk

/-! ## `services/pty_service.py`: ANSI stripping and command capture -/

/-- Scan an OSC body for the terminating BEL: the lazy `.*?\x07` of
`_ANSI_RE`, where `.` does not match a newline. -/
def oscScan : List Char → Option (List Char)
  | [] => none
  | c :: rest =>
      if c = '\x07' then some rest
      else if c = '\n' then none
      else oscScan rest

/-- Try to match one `_ANSI_RE` alternative right after an ESC character;
returns the input after the match.  CSI: `\x1b\[[\?]?[0-9;]*[A-Za-z]`
(the union of the first and third alternatives); OSC: `\x1b\].*?\x07`. -/
def ansiMatch (rest : List Char) : Option (List Char) :=
  match rest with
  | '[' :: r1 =>
      let r2 := match r1 with | '?' :: r => r | _ => r1
      let r3 := r2.dropWhile (fun c => c.isDigit || c = ';')
      match r3 with
      | c :: r4 => if c.isAlpha then some r4 else none
      | [] => none
  | ']' :: r1 => oscScan r1
  | _ => none

/-- Left-to-right non-overlapping substitution by the empty string
(`_ANSI_RE.sub("", text)`); positions without a match emit their character. -/
def stripAnsiAux : Nat → List Char → List Char
  | 0, _ => []
  | _ + 1, [] => []
  | fuel + 1, c :: rest =>
      if c = '\x1b' then
        match ansiMatch rest with
        | some rest2 => stripAnsiAux fuel rest2
        | none => c :: stripAnsiAux fuel rest
      else c :: stripAnsiAux fuel rest

/-- Model of `_strip_ansi` (`services/pty_service.py`). -/
def stripAnsi (s : String) : String :=
  String.mk (stripAnsiAux (s.toList.length + 1) s.toList)

/-- Number of (possibly overlapping) occurrences of `pat` in `cs`. -/
def countSubOcc (cs pat : List Char) : Nat :=
  match cs with
  | [] => if pat.isPrefixOf [] then 1 else 0
  | _ :: rest => (if pat.isPrefixOf cs then 1 else 0) + countSubOcc rest pat

/-- The marker-found branch of `PtySession.execute_command`: strip ANSI from
the raw capture, cut at the first marker occurrence, drop the first line
(the command echo) when a newline exists, and `str.strip()` the result.
When the marker never occurs this branch is not taken (the loop keeps
waiting); the cleaned capture is returned unchanged as a placeholder. -/
def executeCommandMarkerOutput (capturedRaw marker : String) : String :=
  match listIndexOfSub (stripAnsi capturedRaw).toList marker.toList with
  | none => stripAnsi capturedRaw
  | some markerIdx =>
      match listIndexOfSub ((stripAnsi capturedRaw).toList.take markerIdx) ['\n'] with
      | some firstNl =>
          pyStrip (String.mk
            (((stripAnsi capturedRaw).toList.take markerIdx).drop (firstNl + 1)))
      | none => pyStrip (String.mk ((stripAnsi capturedRaw).toList.take markerIdx))

/-- The bytes of the stripped capture strictly between the echoed command
line and the marker (spec wording: substring before the first marker
occurrence with the first line removed), with no trimming. -/
def betweenEchoAndMarker (cleaned marker : String) : String :=
  match listIndexOfSub cleaned.toList marker.toList with
  | none => cleaned
  | some markerIdx =>
      match listIndexOfSub (cleaned.toList.take markerIdx) ['\n'] with
      | some firstNl => String.mk ((cleaned.toList.take markerIdx).drop (firstNl + 1))
      | none => String.mk (cleaned.toList.take markerIdx)

/-! ## `services/pty_service.py`: the global session registry

Sessions are identified by handles; `sessions` records every spawned
session with its `_closed` flag (`PtySession.close()` sets it); `registry`
is the `_registry` dict.
-/

/-- Abstraction of a `PtySession` for registry claims. -/
structure PtySessionModel where
  handle : Nat
  closed : Bool
deriving DecidableEq, Repr

/-- The process-wide PTY state: spawned sessions and the `_registry` map. -/
structure PtyWorld where
  sessions : List PtySessionModel
  registry : List (String × Nat)
deriving DecidableEq, Repr

/-- Python dict assignment `d[k] = v` on an association list. -/
def insertReplace : List (String × Nat) → String → Nat → List (String × Nat)
  | [], id, h => [(id, h)]
  | (k, v) :: rest, id, h =>
      if k = id then (id, h) :: rest else (k, v) :: insertReplace rest id h

/-- Model of `PtySession.close()` on the world: mark the session closed. -/
def closeSession (w : PtyWorld) (h : Nat) : PtyWorld :=
  { w with sessions :=
      w.sessions.map (fun s => if s.handle = h then { s with closed := true } else s) }

/-- Model of `register_session`: exactly the dict assignment
`_registry[session_id] = session` — no other effect. -/
def registerSession (w : PtyWorld) (id : String) (h : Nat) : PtyWorld :=
  { w with registry := insertReplace w.registry id h }

/-- Model of `unregister_session` (`_registry.pop(session_id, None)`). -/
def unregisterSession (w : PtyWorld) (id : String) : PtyWorld :=
  { w with registry := w.registry.filter (fun p => p.1 ≠ id) }

/-- Model of `get_session`. -/
def getSession (w : PtyWorld) (id : String) : Option Nat :=
  (w.registry.find? (fun p => p.1 = id)).map (·.2)

example : splitSqlStatements "SELECT 1; SELECT 2;" = ["SELECT 1", "SELECT 2"] := by decide

/-! ## Concrete instances used by witnesses and counterexamples -/

/-- A context whose validation failed, about to finalize. -/
def ctxFailedValidation : MigrationContext :=
  { emptyContext with current_stage := Stage.validate, validation_passed := false }

/-- A PTY world with one open session registered under `"sid"`. -/
def ptyWorldOne : PtyWorld :=
  { sessions := [{ handle := 0, closed := false }], registry := [("sid", 0)] }

/-- A run paused in human review after executing the first of two files. -/
def ctxPaused : MigrationContext :=
  { emptyContext with
    current_stage := Stage.human_review
    requires_human_intervention := true
    last_executed_file_index := 0 }

/-- A database stub where every statement succeeds with one row. -/
def dbOk : String → Except String (List String) := fun _ => .ok ["ROW"]

/-- Two converted SQL files on disk. -/
def fsTwoFiles : String → Option String := fun p =>
  if p = "f0.sql" then some "SELECT 0;"
  else if p = "f1.sql" then some "SELECT 1;"
  else none

/-- "Count non-empty lines", as the spec words the validation metric. -/
def specNonEmptyLineCount (text : String) : Nat :=
  ((pySplitlines text).filter (fun l => pyStrip l ≠ "")).length

/-- Input totalling the metric: the spec-side fallback mirror of
`validate_code` in terms of the claim vocabulary (source side). -/
def validateInputCount (fs : String → Option String) (state : MigrationContext) : Nat :=
  match countLinesFromFiles fs state.source_files with
  | some n => n
  | none => countLines state.original_code

/-- Output side of the line-count comparison made by `validate_code`. -/
def validateOutputCount (fs : String → Option String) (state : MigrationContext) : Nat :=
  match countLinesFromFiles fs state.converted_files with
  | some n => n
  | none => countLines state.converted_code

/-- Filesystem for the C5 counterexample: a source file with an interior
empty line and a converted file with the same non-empty lines. -/
def fsC5 : String → Option String := fun p =>
  if p = "in.sql" then some "a\n\nb"
  else if p = "out.sql" then some "x\ny"
  else none

/-- Context for the C5 counterexample. -/
def ctxC5 : MigrationContext :=
  { emptyContext with
    current_stage := Stage.execute_sql
    original_code := "a\n\nb"
    converted_code := "x\ny"
    source_files := ["in.sql"]
    converted_files := ["out.sql"] }

/-- A context with no inputs and no outputs at the validate stage. -/
def ctxC5empty : MigrationContext :=
  { emptyContext with current_stage := Stage.execute_sql }

/-- A context at the execute_sql stage with a stale missing-object entry
from a previous (resolved-by-resume) failure. -/
def ctxStaleMissing : MigrationContext :=
  { emptyContext with
    current_stage := Stage.execute_sql
    missing_objects := ["OLD_TABLE"] }

/-- A context at the self-heal stage with the iteration budget already
fully consumed. -/
def ctxBudgetFull : MigrationContext :=
  { emptyContext with
    current_stage := Stage.self_heal
    self_heal_iteration := 5
    max_self_heal_iterations := 5
    converted_code := "SELECT 1;" }

/-- An LLM reply declaring another round of self-healing. -/
def rawSelfHeal : String :=
  "\x7b\"decision\": \"self_heal\", \"reasoning\": \"keep healing\"\x7d"

/-- A successful heal result. -/
def healOkSimple : Except String HealResult :=
  .ok { success := true, fixed_code := "SELECT 1;", issues_fixed := 1 }

/-- An LLM reply declaring a decision outside every allowed set. -/
def rawBadDecision : String :=
  "\x7b\"decision\": \"bad_choice\", \"reasoning\": \"confused\"\x7d"

/-- A chat reply whose FIRST balanced object is valid JSON without an
accepted action, followed by a valid tool call. -/
def c6Counter : String := "\x7b\"a\": 1\x7d \x7b\"action\": \"finish\"\x7d"

/-- The scenario-6 chat reply: narration, one decision object, trailing
text. -/
def c6Scenario : String :=
  "Sure, let me check.\n\n\x7b\"action\":\"run_command\",\"command\":\"ls\",\"reasoning\":\"list\"\x7d\nExtra."

/-- A chat reply with no JSON object at all. -/
def c6Plain : String := "I cannot run that command."

/-- A raw PTY capture whose second line starts with spaces: the echoed
command, an indented output line, then the completion marker. -/
def c7Raw : String := "echo dir\n   hello\n__MARK__\n"

/-! ## Helper lemmas (shared) -/

/-- `listContainsSub` is exactly the infix relation. -/
theorem listContainsSub_iff_infix (cs pat : List Char) :
    listContainsSub cs pat = true ↔ pat <:+: cs := by
  induction cs with
  | nil => simp [listContainsSub, List.isPrefixOf_iff_prefix]
  | cons c rest ih =>
      simp only [listContainsSub, Bool.or_eq_true, List.isPrefixOf_iff_prefix, ih]
      exact List.infix_cons_iff.symm

/-- The classifier reports `missing_object` exactly when the lowered
message contains `"does not exist"` (every pattern of the list contains that
phrase, and the phrase itself is one of the patterns). -/
theorem classify_missing_iff (msg : String) :
    (classifySnowflakeError msg).1 = "missing_object" ↔
      pyContains (pyLower msg) "does not exist" = true := by
  by_cases hc : pyContains (pyLower msg) "does not exist" = true
  · have hany : (["does not exist or not authorized", "does not exist",
        "object does not exist", "table does not exist",
        "schema does not exist"].any
          (fun pattern => pyContains (pyLower msg) pattern)) = true := by
      rw [List.any_eq_true]
      exact ⟨"does not exist", by simp, hc⟩
    simp [classifySnowflakeError, hany, hc]
  · have hone : ∀ pattern : String,
        "does not exist".toList <:+: pattern.toList →
        pyContains (pyLower msg) pattern = true → False := by
      intro pattern hsub hmatch
      apply hc
      rw [pyContains, listContainsSub_iff_infix] at hmatch ⊢
      exact hsub.trans hmatch
    have hany : (["does not exist or not authorized", "does not exist",
        "object does not exist", "table does not exist",
        "schema does not exist"].any
          (fun pattern => pyContains (pyLower msg) pattern)) = false := by
      rw [Bool.eq_false_iff]
      intro habs
      rw [List.any_eq_true] at habs
      obtain ⟨pattern, hmem, hmatch⟩ := habs
      simp only [List.mem_cons, List.not_mem_nil, or_false] at hmem
      rcases hmem with rfl | rfl | rfl | rfl | rfl
      · exact hone _ ⟨[], " or not authorized".toList, rfl⟩ hmatch
      · exact hone _ ⟨[], [], rfl⟩ hmatch
      · exact hone _ ⟨"object ".toList, [], rfl⟩ hmatch
      · exact hone _ ⟨"table ".toList, [], rfl⟩ hmatch
      · exact hone _ ⟨"schema ".toList, [], rfl⟩ hmatch
    simp [classifySnowflakeError, hany, hc]

/-- When a context is paused in human review, the supervisor records the
`human_review` decision without consulting the LLM. -/
theorem supervisorNode_pause_decision (s : MigrationContext) (llm : LLMOutcome)
    (h1 : s.current_stage = Stage.human_review)
    (h2 : s.requires_human_intervention = true) :
    (supervisorNode s llm).supervisor_decision = "human_review" := by
  simp [supervisorNode, h1, h2]

/-- Every allowed-decision list contains `"proceed"`. -/
theorem proceed_mem_allowedDecisions (stage : String) :
    "proceed" ∈ allowedDecisions stage := by
  unfold allowedDecisions
  repeat' split
  all_goals decide

/-- The text-scan fallback only returns list members or `"proceed"`. -/
theorem supervisorTextScan_mem (text : String) (allowed : List String)
    (hp : "proceed" ∈ allowed) :
    (supervisorTextScan text allowed).1 ∈ allowed := by
  unfold supervisorTextScan
  cases hf : (allowed.find? (fun option => pyContains (pyLower text) option)) with
  | none => simpa using hp
  | some option => simpa using List.mem_of_find?_eq_some hf

/-- `_parse_supervisor_response` always returns a decision from the allowed
list, provided `"proceed"` is in that list. -/
theorem parseSupervisorResponse_mem (raw : String) (allowed : List String)
    (hp : "proceed" ∈ allowed) :
    (parseSupervisorResponse raw allowed).1 ∈ allowed := by
  unfold parseSupervisorResponse
  split
  · rename_i members _
    by_cases hd : allowed.contains (declaredDecision members) = true
    · have hmem : declaredDecision members ∈ allowed := by simpa using hd
      simp [hmem]
    · have hmem : declaredDecision members ∉ allowed := by simpa using hd
      simp [hmem, hp]
  · exact supervisorTextScan_mem _ _ hp
  · exact supervisorTextScan_mem _ _ hp

/-- `listIndexOfSub` finds no occurrence exactly when the occurrence count
is zero. -/
theorem listIndexOfSub_none_iff (cs pat : List Char) :
    listIndexOfSub cs pat = none ↔ countSubOcc cs pat = 0 := by
  induction cs with
  | nil =>
      by_cases hp : pat.isPrefixOf [] = true <;>
        simp [listIndexOfSub, countSubOcc, hp]
  | cons c rest ih =>
      by_cases hp : pat.isPrefixOf (c :: rest) = true <;>
        simp [listIndexOfSub, countSubOcc, hp, ih]

/-- Rebuilding a string from its characters. -/
theorem string_mk_toList (s : String) : String.mk s.toList = s := rfl

/-- `rawChunksAux` always returns at least one chunk. -/
theorem rawChunksAux_ne_nil (fuel : Nat) :
    ∀ (cs : List Char) (inS inD inDol : Bool) (prev : PrevChar) (buf : List Char),
      rawChunksAux fuel cs inS inD inDol prev buf ≠ [] := by
  induction fuel with
  | zero => intro cs a b d p buf; simp [rawChunksAux]
  | succ f ih =>
      intro cs a b d p buf
      cases cs with
      | nil => simp [rawChunksAux]
      | cons c rest =>
          unfold rawChunksAux
          split_ifs <;> first | exact ih _ _ _ _ _ _ | simp

/-- Joining a chunk onto a non-empty chunk list. -/
theorem joinChunksList_cons (buf : List Char) (l : List (List Char))
    (h : l ≠ []) : joinChunksList (buf :: l) = buf ++ ';' :: joinChunksList l := by
  cases l with
  | nil => exact absurd rfl h
  | cons c rest => rfl

/-- Joining the raw top-level chunks with `;` reconstructs the scanned
input exactly: the chunk scan loses no characters. -/
theorem rawChunksAux_join (fuel : Nat) :
    ∀ (cs : List Char) (inS inD inDol : Bool) (prev : PrevChar) (buf : List Char),
      cs.length < fuel →
      joinChunksList (rawChunksAux fuel cs inS inD inDol prev buf) = buf ++ cs := by
  induction fuel with
  | zero => intro cs _ _ _ _ _ h; exact absurd h (by omega)
  | succ f ih =>
      intro cs a b d p buf h
      cases cs with
      | nil => simp [rawChunksAux, joinChunksList]
      | cons c rest =>
          unfold rawChunksAux
          split
          · rename_i h1
            simp only [Bool.and_eq_true, decide_eq_true_eq] at h1
            obtain ⟨⟨⟨-, -⟩, hc⟩, hh⟩ := h1
            subst hc
            cases rest with
            | nil => simp at hh
            | cons r rs =>
                have hr : r = '$' := by simpa using hh
                subst hr
                have hlen2 : rs.length < f := by
                  simp only [List.length_cons] at h
                  omega
                simp only [List.tail_cons]
                rw [ih rs a b (!d) none (buf ++ ['$', '$']) hlen2]
                simp
          · rename_i h1
            have hlen2 : rest.length < f := by
              simp only [List.length_cons] at h
              omega
            split
            · rename_i h2
              simp only [Bool.and_eq_true, decide_eq_true_eq] at h2
              obtain ⟨⟨⟨hc, -⟩, -⟩, -⟩ := h2
              subst hc
              rw [joinChunksList_cons _ _ (rawChunksAux_ne_nil f rest _ _ _ _ _)]
              rw [ih rest _ _ _ _ [] hlen2]
              simp
            · rw [ih rest _ _ _ _ (buf ++ [c]) hlen2]
              simp

/-- `splitSqlAux` emits exactly the raw chunks, stripped, with empty
results dropped (appended to the accumulator). -/
theorem splitSqlAux_eq_chunks (fuel : Nat) :
    ∀ (cs : List Char) (inS inD inDol : Bool) (prev : PrevChar)
      (buf : List Char) (acc : List String),
      cs.length < fuel →
      splitSqlAux fuel cs inS inD inDol prev buf acc
        = acc ++ (((rawChunksAux fuel cs inS inD inDol prev buf).map
            stripList).filter (fun l => l.isEmpty = false)).map String.mk := by
  induction fuel with
  | zero => intro cs _ _ _ _ _ _ h; exact absurd h (by omega)
  | succ f ih =>
      intro cs a b d p buf acc h
      cases cs with
      | nil =>
          by_cases hE : (stripList buf).isEmpty = true
          · have hnil : stripList buf = [] := by simpa using hE
            simp [splitSqlAux, rawChunksAux, hE, hnil]
          · have hnil : ¬ stripList buf = [] := by simpa using hE
            simp [splitSqlAux, rawChunksAux, hE, hnil]
      | cons c rest =>
          have hlen : rest.length < f := by
            simp only [List.length_cons] at h
            omega
          unfold splitSqlAux rawChunksAux
          split
          · rename_i h1
            cases rest with
            | nil =>
                simp only [Bool.and_eq_true, decide_eq_true_eq] at h1
                simp at h1
            | cons r rs =>
                have hlen2 : rs.length < f := by
                  simp only [List.length_cons] at h
                  omega
                simp only [List.tail_cons]
                exact ih rs a b (!d) none (buf ++ ['$', '$']) acc hlen2
          · rename_i h1
            split
            · rename_i h2
              rw [ih rest _ _ _ _ [] _ hlen]
              by_cases hE : (stripList buf).isEmpty = true <;>
                by_cases hnil : stripList buf = [] <;>
                simp_all [List.filter_cons]
            · rename_i h2
              exact ih rest _ _ _ _ (buf ++ [c]) acc hlen

/-- Bridging: joining mapped strings equals the string of the list join. -/
theorem joinWith_map_mk (l : List (List Char)) :
    joinWith ";" (l.map String.mk) = String.mk (joinChunksList l) := by
  induction l with
  | nil => rfl
  | cons c rest ih =>
      cases rest with
      | nil => rfl
      | cons c2 r2 =>
          show String.mk c ++ ";" ++ joinWith ";" ((c2 :: r2).map String.mk) = _
          rw [ih]
          show String.mk ((c ++ [';']) ++ joinChunksList (c2 :: r2)) = _
          exact congrArg String.mk (by simp [joinChunksList])

/-- Bridging: stripping and filtering commutes with `String.mk`. -/
theorem filter_strip_map_mk (l : List (List Char)) :
    ((l.map stripList).filter (fun c => c.isEmpty = false)).map String.mk
      = ((l.map String.mk).map pyStrip).filter (fun s => ¬ s = "") := by
  induction l with
  | nil => rfl
  | cons c rest ih =>
      have hps : pyStrip (String.mk c) = String.mk (stripList c) := rfl
      by_cases hnil : stripList c = []
      · simp_all [List.filter_cons, List.map_map]
      · have hne : ¬ String.mk (stripList c) = "" := by
          intro habs
          have := congrArg String.toList habs
          simp at this
          exact hnil this
        simp_all [List.filter_cons, List.map_map]

/-- The candidate loop returns `none` when no candidate is accepted. -/
theorem firstToolCall_eq_none (l : List (List Char))
    (h : ∀ cand ∈ l, goodToolCandidate cand = false) :
    firstToolCall l = none := by
  induction l with
  | nil => rfl
  | cons cand rest ih =>
      have hc := h cand (List.mem_cons_self cand rest)
      have hrest := ih (fun c hm => h c (List.mem_cons_of_mem cand hm))
      unfold firstToolCall
      unfold goodToolCandidate at hc
      split
      · rename_i members heq
        rw [heq] at hc
        simp only at hc
        simp [hc, hrest]
      · exact hrest

set_option maxHeartbeats 3000000 in
/-- `_deterministic_fallback` returns a decision from the allowed set of
the current (non-error) stage. -/
theorem deterministicFallback_mem (state : MigrationContext)
    (h : state.current_stage ≠ Stage.error) :
    (deterministicFallback state (allowedDecisions state.current_stage.value)).1
      ∈ allowedDecisions state.current_stage.value := by
  cases hs : state.current_stage
  case error => exact absurd hs h
  all_goals
    unfold deterministicFallback
    rw [hs]
    simp only [Stage.value]
    split_ifs <;> simp_all [allowedDecisions]

/-! ## Claim theorems -/

/-- Claim C1 counterexample: with the context paused in human review
(`requires_human_intervention` set), the supervisor records the decision
`human_review`, which is not in the allowed set `["proceed", "abort"]` of
the `human_review` stage — so the recorded decision is not always in the
allowed set for the current stage. -/
theorem supervisor_allowed_counterexample :
    (supervisorNode ctxPaused LLMOutcome.unavailable).supervisor_decision
      = "human_review" ∧
    ctxPaused.current_stage.value = "human_review" ∧
    "human_review" ∉ allowedDecisions "human_review" := by
  exact ⟨rfl, rfl, by decide⟩

/-- Claim C1 (amended): whenever the supervisor actually evaluates — the
stage is neither `error` nor `completed` (auto-routing) and the context is
not already paused in human review (which records `human_review` outside
its own allowed set) — the recorded decision is in the allowed set of the
current stage, whether it came from the parsed LLM reply or from the
deterministic fallback; and when the parsed LLM response declares a
decision outside the allowed set, the recorded decision is `proceed`. -/
theorem supervisor_decision_in_allowed (state : MigrationContext)
    (llm : LLMOutcome)
    (h1 : state.current_stage ≠ Stage.error)
    (h2 : state.current_stage ≠ Stage.completed)
    (h3 : ¬(state.current_stage = Stage.human_review ∧
            state.requires_human_intervention = true)) :
    (supervisorNode state llm).supervisor_decision
      ∈ allowedDecisions state.current_stage.value ∧
    (∀ raw members, llm = LLMOutcome.reply raw →
      jsonParse (supervisorFenceStrip (pyStrip raw)) = some (Json.obj members) →
      declaredDecision members ∉ allowedDecisions state.current_stage.value →
      (supervisorNode state llm).supervisor_decision = "proceed") := by
  have ha : (state.current_stage = Stage.error ∨ state.current_stage = Stage.completed)
      → False := by rintro (hx | hx) <;> [exact h1 hx; exact h2 hx]
  constructor
  · unfold supervisorNode
    split_ifs with hc1 hc2
    · exact absurd (by simpa using hc1) ha
    · exact absurd (by simpa using hc2) h3
    · cases llm with
      | unavailable => simpa using deterministicFallback_mem state h1
      | reply raw =>
          simpa using parseSupervisorResponse_mem (pyStrip raw) _
            (proceed_mem_allowedDecisions _)
  · intro raw members hllm hjson hnot
    subst hllm
    unfold supervisorNode
    split_ifs with hc1 hc2
    · exact absurd (by simpa using hc1) ha
    · exact absurd (by simpa using hc2) h3
    · simp [parseSupervisorResponse, hjson, hnot]

/-- Witness for C1 (amended): at the validate stage, an LLM reply declaring
the invalid decision `bad_choice` is recorded as `proceed`, which is in the
allowed set. -/
theorem supervisor_decision_in_allowed_witness :
    ctxFailedValidation.current_stage ≠ Stage.error ∧
    (supervisorNode ctxFailedValidation
        (LLMOutcome.reply rawBadDecision)).supervisor_decision = "proceed" ∧
    (supervisorNode ctxFailedValidation
        (LLMOutcome.reply rawBadDecision)).supervisor_decision
      ∈ allowedDecisions ctxFailedValidation.current_stage.value := by
  have h := supervisor_decision_in_allowed ctxFailedValidation
    (LLMOutcome.reply rawBadDecision) (by decide) (by decide) (by decide)
  refine ⟨by decide, ?_, h.1⟩
  exact h.2 rawBadDecision
    [("decision", Json.str "bad_choice"), ("reasoning", Json.str "confused")]
    rfl rfl (by decide)

/-- Claim C2 counterexample: with `self_heal_iteration = 5 =
max_self_heal_iterations`, the decision `self_heal` is still in the allowed
set of the `self_heal` stage, the supervisor records an LLM reply declaring
it, the router sends the run back into the self-heal node, and the node —
which increments unconditionally — pushes the iteration to `6`, past its
budget of `5`. -/
theorem selfHeal_budget_counterexample :
    ctxBudgetFull.self_heal_iteration = 5 ∧
    ctxBudgetFull.max_self_heal_iterations = 5 ∧
    "self_heal" ∈ allowedDecisions ctxBudgetFull.current_stage.value ∧
    (supervisorNode ctxBudgetFull (LLMOutcome.reply rawSelfHeal)).supervisor_decision
      = "self_heal" ∧
    (routeAfterSupervisor
        (supervisorNode ctxBudgetFull (LLMOutcome.reply rawSelfHeal))).2 = "self_heal" ∧
    (selfHealNode {} healOkSimple
        (routeAfterSupervisor
          (supervisorNode ctxBudgetFull (LLMOutcome.reply rawSelfHeal))).1).self_heal_iteration
      = 6 := by
  exact ⟨rfl, rfl, by decide, rfl, rfl, rfl⟩

/-- Claim C2 (amended): `self_heal_node` increments `self_heal_iteration`
unconditionally; the only budget enforcement is the deterministic fallback
at the `validate` stage, which chooses `self_heal` only while the iteration
is strictly below the budget — so every fallback-sanctioned
validate→self-heal step ends with `self_heal_iteration ≤
max_self_heal_iterations`.  (An LLM-chosen `self_heal` decision is not
budget-checked, which is what the counterexample exploits.) -/
theorem selfHeal_budget_under_fallback (state : MigrationContext)
    (report : ReportContext) (heal : Except String HealResult)
    (hstage : state.current_stage = Stage.validate)
    (hfb : (deterministicFallback state
        (allowedDecisions state.current_stage.value)).1 = "self_heal") :
    state.self_heal_iteration < state.max_self_heal_iterations ∧
    (selfHealNode report heal state).self_heal_iteration
      = state.self_heal_iteration + 1 ∧
    (selfHealNode report heal state).self_heal_iteration
      ≤ state.max_self_heal_iterations := by
  have hlt : state.self_heal_iteration < state.max_self_heal_iterations := by
    unfold deterministicFallback at hfb
    simp only [hstage, Stage.value, allowedDecisions] at hfb
    simp at hfb
    split_ifs at hfb with hv hit
    · simp at hfb
    · exact hit
    · simp at hfb
  have hne : isErrorState state = false := by simp [isErrorState, hstage]
  have hinc : (selfHealNode report heal state).self_heal_iteration
      = state.self_heal_iteration + 1 := by
    unfold selfHealNode
    simp only [hne, Bool.false_eq_true, if_false]
    by_cases hcc : state.converted_code = ""
    · simp [hcc]
    · cases heal with
      | error e => simp [hcc]
      | ok hr =>
          by_cases hsucc : hr.success = true
          · simp only [hcc, if_neg, hsucc, if_true]
            split_ifs <;> simp
          · simp [hcc, hsucc]
  exact ⟨hlt, hinc, by omega⟩

/-- Claim C6 counterexample: in
`"{"a": 1} {"action": "finish"}"` the first balanced top-level
brace-delimited substring is `{"a": 1}` — valid JSON whose `action` is not
one of the accepted values — so by the claim the parser must return null;
instead it scans on and returns the second object. -/
theorem tryParseToolCall_counterexample :
    firstBalancedObject c6Counter = some "\x7b\"a\": 1\x7d" ∧
    jsonParse "\x7b\"a\": 1\x7d" = some (Json.obj [("a", Json.num "1")]) ∧
    isToolCallValue (objGet [("a", Json.num "1")] "action") = false ∧
    tryParseToolCall c6Counter = some (Json.obj [("action", Json.str "finish")]) := by
  exact ⟨rfl, rfl, rfl, rfl⟩

/-- Claim C6 (amended): after optional markdown-fence stripping, the parser
returns the FIRST balanced top-level brace-delimited substring that is valid
JSON with an accepted `action` (`run_command`, `run_tool`, `finish`,
`pause`) — in particular, exactly the first balanced substring whenever that
one qualifies — and returns null exactly when no balanced candidate
qualifies (not merely when the first fails). -/
theorem tryParseToolCall_first_valid (S : String) :
    (∀ cand rest members,
      chatCandidates S = cand :: rest →
      jsonParse (String.mk cand) = some (Json.obj members) →
      isToolCallValue (objGet members "action") = true →
      tryParseToolCall S = some (Json.obj members)) ∧
    ((∀ cand ∈ chatCandidates S, goodToolCandidate cand = false) →
      tryParseToolCall S = none) := by
  constructor
  · intro cand rest members hcands hparse hgood
    unfold tryParseToolCall
    rw [hcands]
    unfold firstToolCall
    rw [hparse]
    simp [hgood]
  · intro hall
    exact firstToolCall_eq_none _ hall

/-- Witness for C6 (amended): the scenario-6 reply parses to its decision
object, and a plain-text reply parses to null. -/
theorem tryParseToolCall_first_valid_witness :
    tryParseToolCall c6Scenario =
      some (Json.obj [("action", Json.str "run_command"),
        ("command", Json.str "ls"), ("reasoning", Json.str "list")]) ∧
    tryParseToolCall c6Plain = none := by
  constructor
  · exact (tryParseToolCall_first_valid c6Scenario).1
      "\x7b\"action\":\"run_command\",\"command\":\"ls\",\"reasoning\":\"list\"\x7d".toList
      [] [("action", Json.str "run_command"), ("command", Json.str "ls"),
        ("reasoning", Json.str "list")] rfl rfl rfl
  · refine (tryParseToolCall_first_valid c6Plain).2 ?_
    intro cand hm
    rw [show chatCandidates c6Plain = [] from rfl] at hm
    simp at hm

/-- Claim C7 counterexample: for a capture whose output line has leading
whitespace, `execute_command` does not return the exact between-bytes with
only trailing whitespace trimmed — `str.strip()` removes the leading
whitespace too (`"hello"`, not `"   hello"`). -/
theorem executeCommand_capture_counterexample :
    countSubOcc (stripAnsi c7Raw).toList "__MARK__".toList = 1 ∧
    pyRStrip (betweenEchoAndMarker (stripAnsi c7Raw) "__MARK__") = "   hello" ∧
    executeCommandMarkerOutput c7Raw "__MARK__" = "hello" ∧
    executeCommandMarkerOutput c7Raw "__MARK__"
      ≠ pyRStrip (betweenEchoAndMarker (stripAnsi c7Raw) "__MARK__") := by
  exact ⟨by decide, rfl, rfl, by decide⟩

/-- Claim C7 (amended): for every command whose captured output contains
the completion marker exactly once, `execute_command` returns the bytes of
the ANSI-stripped capture between the echoed command line (the first line,
removed) and the marker, with both leading and trailing whitespace trimmed
(`str.strip()`), not only trailing. -/
theorem executeCommand_capture (raw marker : String)
    (honce : countSubOcc (stripAnsi raw).toList marker.toList = 1) :
    executeCommandMarkerOutput raw marker
      = pyStrip (betweenEchoAndMarker (stripAnsi raw) marker) := by
  unfold executeCommandMarkerOutput betweenEchoAndMarker
  cases hidx : listIndexOfSub (stripAnsi raw).toList marker.toList with
  | none =>
      exfalso
      have h0 : countSubOcc (stripAnsi raw).toList marker.toList = 0 := by
        have := listIndexOfSub_none_iff (stripAnsi raw).toList marker.toList
        exact this.mp hidx
      omega
  | some markerIdx =>
      cases hnl : listIndexOfSub ((stripAnsi raw).toList.take markerIdx) ['\n'] with
      | none =>
          simp only [String.toList] at hnl
          simp [hnl]
      | some firstNl =>
          simp only [String.toList] at hnl
          simp [hnl]

/-- Witness for C7 (amended): the capture above, with its marker occurring
exactly once. -/
theorem executeCommand_capture_witness :
    countSubOcc (stripAnsi c7Raw).toList "__MARK__".toList = 1 ∧
    executeCommandMarkerOutput c7Raw "__MARK__"
      = pyStrip (betweenEchoAndMarker (stripAnsi c7Raw) "__MARK__") := by
  exact ⟨by decide, executeCommand_capture c7Raw "__MARK__" (by decide)⟩

/-- Claim C8 counterexample: for `T = "a ;b"` the splitter yields
`["a", "b"]` and the join is `"a;b"` — `T` is not reconstructed, neither
as-is nor with a trailing `;`, although no empty statement was trimmed: the
difference is the whitespace stripped from each statement, which the claim
does not allow for. -/
theorem splitSql_roundtrip_counterexample :
    splitSqlStatements "a ;b" = ["a", "b"] ∧
    joinWith ";" (splitSqlStatements "a ;b") = "a;b" ∧
    ¬ ("a ;b" = "a;b") ∧
    ¬ ("a ;b" = "a;b" ++ ";") ∧
    (∀ c ∈ rawChunks "a ;b", ¬ pyStrip c = "") := by
  refine ⟨by decide, by decide, by decide, by decide, by decide⟩

/-- Claim C8 (amended): splitting decomposes the input into its top-level
`;`-chunks — joining the raw chunks with `;` reconstructs `T` exactly (so
no character, in particular no quoted or dollar-quoted `;`, is lost or
moved across a split point), and `split(T)` is precisely those chunks with
Python-stripped whitespace and empty results dropped.  Hence
`join(";", split(T))` reconstructs `T` only up to per-statement whitespace
trimming, dropped empty statements, and an optional trailing `;`. -/
theorem splitSql_characterization (T : String) :
    joinWith ";" (rawChunks T) = T ∧
    splitSqlStatements T = ((rawChunks T).map pyStrip).filter (fun s => ¬ s = "") := by
  constructor
  · rw [rawChunks, joinWith_map_mk,
      rawChunksAux_join (T.toList.length + 1) T.toList false false false none []
        (by omega)]
    simp [string_mk_toList]
  · rw [splitSqlStatements,
      splitSqlAux_eq_chunks (T.toList.length + 1) T.toList false false false none [] []
        (by omega),
      rawChunks, filter_strip_map_mk]
    simp

/-- Witness for C2 (amended): a failed validation with budget remaining —
the fallback picks `self_heal` and the node lands exactly on iteration 1,
within the budget of 5. -/
theorem selfHeal_budget_under_fallback_witness :
    ctxFailedValidation.current_stage = Stage.validate ∧
    (deterministicFallback ctxFailedValidation
        (allowedDecisions ctxFailedValidation.current_stage.value)).1 = "self_heal" ∧
    (selfHealNode {} healOkSimple ctxFailedValidation).self_heal_iteration = 1 ∧
    (selfHealNode {} healOkSimple ctxFailedValidation).self_heal_iteration
      ≤ ctxFailedValidation.max_self_heal_iterations := by
  have h := selfHeal_budget_under_fallback ctxFailedValidation {} healOkSimple
    rfl (by decide)
  exact ⟨rfl, by decide, by rw [h.2.1]; decide, h.2.2⟩

/-- Claim C10: for every migration context not in the error stage,
`finalize_node` unconditionally sets `validation_passed` to `True` and the
stage to `completed` — even when validation previously failed — while the
`summary_report` it builds records the pre-finalize value of
`validation_passed`; each additional invocation appends the copied output
files to `output_files` again. -/
theorem finalizeNode_overwrites_validation
    (copied : List String) (state : MigrationContext)
    (h : state.current_stage ≠ Stage.error) :
    (finalizeNode copied state).validation_passed = true ∧
    (finalizeNode copied state).current_stage = Stage.completed ∧
    (finalizeNode copied state).summary_report.map SummaryReport.validation_passed
      = some state.validation_passed ∧
    (finalizeNode copied state).output_files = state.output_files ++ copied ∧
    (finalizeNode copied (finalizeNode copied state)).output_files
      = (state.output_files ++ copied) ++ copied := by
  have hne : isErrorState state = false := by
    simp [isErrorState, h]
  have hstep : ∀ s : MigrationContext, isErrorState s = false →
      (finalizeNode copied s).validation_passed = true ∧
      (finalizeNode copied s).current_stage = Stage.completed ∧
      (finalizeNode copied s).summary_report.map SummaryReport.validation_passed
        = some s.validation_passed ∧
      (finalizeNode copied s).output_files = s.output_files ++ copied := by
    intro s hs
    simp [finalizeNode, hs]
  obtain ⟨h1, h2, h3, h4⟩ := hstep state hne
  have hne2 : isErrorState (finalizeNode copied state) = false := by
    simp [isErrorState, h2]
  obtain ⟨_, _, _, h4b⟩ := hstep (finalizeNode copied state) hne2
  exact ⟨h1, h2, h3, h4, by rw [h4b, h4]⟩

/-- Witness for C10: a context that failed validation, finalized twice. -/
theorem finalizeNode_overwrites_validation_witness :
    ctxFailedValidation.current_stage ≠ Stage.error ∧
    (finalizeNode ["outputs/p/converted/a.sql"] ctxFailedValidation).validation_passed
      = true ∧
    (finalizeNode ["outputs/p/converted/a.sql"]
        ctxFailedValidation).summary_report.map SummaryReport.validation_passed
      = some false ∧
    (finalizeNode ["outputs/p/converted/a.sql"]
        (finalizeNode ["outputs/p/converted/a.sql"] ctxFailedValidation)).output_files
      = ["outputs/p/converted/a.sql", "outputs/p/converted/a.sql"] := by
  have h := finalizeNode_overwrites_validation ["outputs/p/converted/a.sql"]
    ctxFailedValidation (by decide)
  exact ⟨by decide, h.1, h.2.2.1, by rw [h.2.2.2.2]; rfl⟩

/-- Claim C9 counterexample: registering a second session under an already
used id replaces the mapping, but — contrary to the claim — the prior
session is not closed: its `closed` flag is still `false` afterwards. -/
theorem registerSession_counterexample :
    getSession (registerSession ptyWorldOne "sid" 1) "sid" = some 1 ∧
    (registerSession ptyWorldOne "sid" 1).sessions = [{ handle := 0, closed := false }] := by
  constructor <;> rfl

/-- Claim C3 counterexample: a non-missing-object execution error on a
context that still carries a stale missing-object entry (left over from a
previous missing-object pause) is NOT routed to self-heal: the supervisor's
deterministic fallback still routes to human-review, because the fallback
checks `missing_objects` before `self_heal`.  The claim's "for every other
execution error it routes the run to self-heal" is therefore false. -/
theorem executeSql_error_routing_counterexample :
    classifySnowflakeError "Syntax error at position 5" = ("execution_error", "") ∧
    (supervisorNode
        (handleExecError [] ctxStaleMissing
          { message := "Syntax error at position 5" })
        LLMOutcome.unavailable).supervisor_decision = "human_review" := by
  constructor <;> rfl

/-- Claim C3 (amended): when executing converted SQL fails, the error is
classified by the missing-object heuristic — `missing_object` exactly when
the lowered message contains "does not exist".  On `missing_object` the
stage moves to human-review, `requires_ddl_upload` is set, the extracted
(single-quote-delimited) object name is recorded in `missing_objects` when
non-empty, and the supervisor pauses with decision `human_review`.  On any
other execution error the stage stays at `execute_sql` with an
`execution_error` validation issue appended, and the deterministic fallback
routes to self-heal provided no (stale) missing objects remain recorded on
the context. -/
theorem executeSql_error_routing
    (sqlFiles : List String) (state : MigrationContext) (e : ExcInfo)
    (hstage : state.current_stage = Stage.execute_sql) :
    ((classifySnowflakeError e.message).1 = "missing_object" ↔
      pyContains (pyLower e.message) "does not exist" = true) ∧
    ((classifySnowflakeError e.message).1 = "missing_object" →
      (handleExecError sqlFiles state e).current_stage = Stage.human_review ∧
      (handleExecError sqlFiles state e).requires_ddl_upload = true ∧
      (handleExecError sqlFiles state e).requires_human_intervention = true ∧
      (pyStrip (classifySnowflakeError e.message).2 ≠ "" →
        pyStrip (classifySnowflakeError e.message).2 ∈
          (handleExecError sqlFiles state e).missing_objects) ∧
      (∀ llm, (supervisorNode (handleExecError sqlFiles state e) llm).supervisor_decision
          = "human_review")) ∧
    ((classifySnowflakeError e.message).1 = "execution_error" →
      (handleExecError sqlFiles state e).current_stage = Stage.execute_sql ∧
      ((handleExecError sqlFiles state e).validation_issues.map Issue.type).getLast?
        = some "execution_error" ∧
      (state.missing_objects = [] →
        (deterministicFallback (handleExecError sqlFiles state e)
          (allowedDecisions "execute_sql")).1 = "self_heal")) := by
  refine ⟨classify_missing_iff e.message, ?_, ?_⟩
  · intro hmiss
    rcases hcls : classifySnowflakeError e.message with ⟨t, name⟩
    rw [hcls] at hmiss
    simp only at hmiss
    subst hmiss
    have hmain : (handleExecError sqlFiles state e).current_stage = Stage.human_review ∧
        (handleExecError sqlFiles state e).requires_ddl_upload = true ∧
        (handleExecError sqlFiles state e).requires_human_intervention = true := by
      simp only [handleExecError, hcls]
      by_cases hn : name = "" <;>
        by_cases hmem : state.missing_objects.contains (pyStrip name) <;>
        simp [hn, hmem]
    refine ⟨hmain.1, hmain.2.1, hmain.2.2, ?_, ?_⟩
    · intro hnormal
      simp only at hnormal ⊢
      have hn : name ≠ "" := by
        intro habs
        exact hnormal (by rw [habs]; rfl)
      simp only [handleExecError, hcls]
      by_cases hmem : pyStrip name ∈ state.missing_objects
      · simp [hn, hnormal, hmem]
      · simp [hn, hnormal, hmem]
    · intro llm
      exact supervisorNode_pause_decision _ llm hmain.1 hmain.2.2
  · intro hexec
    rcases hcls : classifySnowflakeError e.message with ⟨t, name⟩
    rw [hcls] at hexec
    simp only at hexec
    subst hexec
    have hne : ("execution_error" = "missing_object") = False := by simp
    refine ⟨?_, ?_, ?_⟩
    · simp [handleExecError, hcls, hstage]
    · simp [handleExecError, hcls]
    · intro hempty
      have h1 : (handleExecError sqlFiles state e).current_stage = Stage.execute_sql := by
        simp [handleExecError, hcls, hstage]
      have h2 : (handleExecError sqlFiles state e).execution_passed = false := by
        simp [handleExecError, hcls]
      have h3 : (handleExecError sqlFiles state e).missing_objects = [] := by
        simp [handleExecError, hcls, hempty]
      simp [deterministicFallback, h1, h2, h3, Stage.value, allowedDecisions]

/-- Witness for C3 (amended): a missing-object failure on a fresh context
and a syntax error on a context without recorded missing objects. -/
theorem executeSql_error_routing_witness :
    ({ emptyContext with current_stage := Stage.execute_sql } :
        MigrationContext).current_stage = Stage.execute_sql ∧
    pyStrip (classifySnowflakeError
        "Object 'MISSING_TABLE' does not exist or not authorized").2 ∈
      (handleExecError [] { emptyContext with current_stage := Stage.execute_sql }
        { message := "Object 'MISSING_TABLE' does not exist or not authorized"
          }).missing_objects ∧
    (deterministicFallback
        (handleExecError [] { emptyContext with current_stage := Stage.execute_sql }
          { message := "Unexpected token" })
        (allowedDecisions "execute_sql")).1 = "self_heal" := by
  have hm := executeSql_error_routing []
    { emptyContext with current_stage := Stage.execute_sql }
    { message := "Object 'MISSING_TABLE' does not exist or not authorized" } rfl
  have hx := executeSql_error_routing []
    { emptyContext with current_stage := Stage.execute_sql }
    { message := "Unexpected token" } rfl
  refine ⟨rfl, ?_, ?_⟩
  · exact ((hm.2.1 (by rfl)).2.2.2.1) (by decide)
  · exact (hx.2.2 (by rfl)).2.2 rfl

/-- Claim C4: on resume, the human-intervention flag is cleared and the
context stage is set to `execute_sql`, and `execute_sql_node` skips files up
to `last_executed_file_index` — but the compiled graph that
`resume_workflow_stream` re-streams starts at its fixed entry point
`init_project`, not at `execute_sql`, contradicting the function's own
docstring ("Re-runs the graph from execute_sql with the updated context"). -/
theorem resume_restarts_graph_at_init_project :
    (resumeWorkflowPrep ctxPaused).requires_human_intervention = false ∧
    (resumeWorkflowPrep ctxPaused).current_stage = Stage.execute_sql ∧
    (executeSqlNode dbOk fsTwoFiles ["f0.sql", "f1.sql"]
        (resumeWorkflowPrep ctxPaused)).execution_log =
      [{ file := "f1.sql", index := 1, status := "success"
         statements := [{ statement_index := 0, status := "success"
                          statement := "SELECT 1", row_count := 1
                          output_preview := ["ROW"] }] }] ∧
    buildMigrationGraph.entry_point = "init_project" ∧
    buildMigrationGraph.entry_point ≠ "execute_sql" := by
  refine ⟨rfl, rfl, rfl, rfl, ?_⟩
  decide

/-- Claim C5 counterexample.  First part: a source file `"a\n\nb"` (two
non-empty lines) against a converted file `"x\ny"` (two non-empty lines) —
under the claim's non-empty-line metric validation must pass (2 ≥ 2), but
the stage fails it, because `_count_lines` counts all `splitlines` lines
(3 for the input).  Second part: with empty inputs and outputs the claim
demands `passed = true` (0 ≥ 0), but the stage records `passed = false`
("No code available for validation"). -/
theorem validateNode_counterexample :
    specNonEmptyLineCount "x\ny" ≥ specNonEmptyLineCount "a\n\nb" ∧
    (validateNode fsC5 ctxC5).validation_passed = false ∧
    (validateNode (fun _ => none) ctxC5empty).validation_passed = false := by
  refine ⟨by decide, ?_, ?_⟩ <;> rfl

/-- Claim C5 (amended): when `converted_code` is non-empty, the validate
stage passes iff the total `splitlines` line count (empty lines included)
across the converted files (falling back to `converted_code`) is at least
the total across the source files (falling back to `original_code`); on
failure a `line_count_regression` issue is recorded.  When `converted_code`
is empty the stage records `passed = false` with a `validation_error`
issue. -/
theorem validateNode_line_count (fs : String → Option String)
    (state : MigrationContext) (h : state.current_stage ≠ Stage.error) :
    (state.converted_code = "" →
      (validateNode fs state).validation_passed = false ∧
      (validateNode fs state).validation_issues.map Issue.type
        = ["validation_error"]) ∧
    (state.converted_code ≠ "" →
      ((validateNode fs state).validation_passed
          = decide (validateOutputCount fs state ≥ validateInputCount fs state)) ∧
      ((validateNode fs state).validation_issues.map Issue.type
          = if validateOutputCount fs state ≥ validateInputCount fs state then []
            else ["line_count_regression"])) := by
  have hne : isErrorState state = false := by simp [isErrorState, h]
  constructor
  · intro hempty
    constructor <;> simp [validateNode, hne, hempty]
  · intro hnonempty
    by_cases hcmp : validateOutputCount fs state ≥ validateInputCount fs state
    · rw [ge_iff_le] at hcmp
      simp only [validateOutputCount, validateInputCount] at hcmp
      by_cases hoc : state.original_code = ""
      · rw [hoc] at hcmp
        constructor <;>
          simp [validateNode, hne, hnonempty, validateCode, hoc, hcmp,
            validateOutputCount, validateInputCount]
      · constructor <;>
          simp [validateNode, hne, hnonempty, validateCode, hoc, hcmp,
            validateOutputCount, validateInputCount]
    · rw [ge_iff_le] at hcmp
      simp only [validateOutputCount, validateInputCount] at hcmp
      by_cases hoc : state.original_code = ""
      · rw [hoc] at hcmp
        constructor <;>
          simp [validateNode, hne, hnonempty, validateCode, hoc, hcmp,
            validateOutputCount, validateInputCount]
      · constructor <;>
          simp [validateNode, hne, hnonempty, validateCode, hoc, hcmp,
            validateOutputCount, validateInputCount]

/-- Witness for C5 (amended): the failing-pair filesystem above, plus an
empty-code context. -/
theorem validateNode_line_count_witness :
    ctxC5.current_stage ≠ Stage.error ∧
    ctxC5.converted_code ≠ "" ∧
    (validateNode fsC5 ctxC5).validation_passed
      = decide (validateOutputCount fsC5 ctxC5 ≥ validateInputCount fsC5 ctxC5) ∧
    ({ emptyContext with current_stage := Stage.execute_sql } :
        MigrationContext).converted_code = "" ∧
    (validateNode (fun _ => none) ctxC5empty).validation_passed = false := by
  have h1 := validateNode_line_count fsC5 ctxC5 (by decide)
  have h2 := validateNode_line_count (fun _ => none) ctxC5empty (by decide)
  exact ⟨by decide, by decide, (h1.2 (by decide)).1, by decide, (h2.1 (by decide)).1⟩

/-- Claim C9 (amended): re-registering a session-id replaces the mapping —
a subsequent lookup yields only the new session — but `register_session`
never closes the prior session: the session store is untouched, so the old
session keeps whatever `closed` flag it had (it is closed only by its
owning WebSocket handler). -/
theorem registerSession_replaces_without_closing
    (w : PtyWorld) (id : String) (h : Nat) :
    getSession (registerSession w id h) id = some h ∧
    (registerSession w id h).sessions = w.sessions := by
  refine ⟨?_, rfl⟩
  show (((insertReplace w.registry id h).find? (fun p => p.1 = id)).map (·.2)) = some h
  induction w.registry with
  | nil => simp [insertReplace, List.find?]
  | cons kv rest ih =>
      by_cases hk : kv.1 = id
      · simp [insertReplace, hk, List.find?]
      · simpa [insertReplace, hk, List.find?_cons_of_neg, hk] using ih
example : splitSqlStatements "INSERT INTO t VALUES ('a;b'); SELECT 1" =
    ["INSERT INTO t VALUES ('a;b')", "SELECT 1"] := by decide
example : splitSqlStatements "CREATE PROC AS $$ x; y $$; SELECT 1" =
    ["CREATE PROC AS $$ x; y $$", "SELECT 1"] := by decide
example : rawChunks "a ;b" = ["a ", "b"] := by decide

end Spec2Proof
